import Mathlib

/-!
Verification of the extraction-and-aggregation subsystem of the
gemini3-lit-review pipeline (src/extract.py, src/aggregate.py).

The Python code manipulates JSON-like dictionaries; we model JSON values
with an inductive `Json` type (numbers as integers: the records handled by
the code carry only integers; the coverage percentages computed by the
aggregation functions are modelled as rationals `ℚ` since they only undergo
exact small-integer arithmetic before display rounding).

External collaborators (the Gemini provider, `json.loads`, the file system)
are abstracted as explicit parameters: a provider behaviour records what
each upload / generation / deletion call would do, and `json.loads` is a
parameter `loads : String → Except String Json` (an `.error` models a
raised `json.JSONDecodeError` carrying its message).  Everything else is
translated directly from the Python source.
-/

/-- JSON values as handled by the pipeline (Python dicts keep insertion
order, so objects are ordered association lists). -/
inductive Json where
  | null : Json
  | bool (b : Bool) : Json
  | num (n : Int) : Json
  | str (s : String) : Json
  | arr (elems : List Json) : Json
  | obj (entries : List (String × Json)) : Json

/-- A Python dict with string keys, in insertion order. -/
abbrev PyDict := List (String × Json)

namespace Json

/-- Python truthiness of a JSON value (`bool(x)`). -/
def truthy : Json → Bool
  | .null => false
  | .bool b => b
  | .num n => n != 0
  | .str s => s != ""
  | .arr l => !l.isEmpty
  | .obj l => !l.isEmpty

end Json

namespace PyDict

/-- `key in d` for a Python dict: key membership. -/
def hasKey (d : PyDict) (k : String) : Bool :=
  d.any (fun kv => kv.1 == k)

/-- `d.get(k)`: `none` models Python's `None` default when the key is
absent. -/
def get (d : PyDict) (k : String) : Option Json :=
  (d.find? (fun kv => kv.1 == k)).map (·.2)

/-- `d.get(k, dflt)`. -/
def getD (d : PyDict) (k : String) (dflt : Json) : Json :=
  (d.get k).getD dflt

/-- `d[k] = v` on a Python dict: replace the value in place if the key
exists (position kept), else append the new key at the end. -/
def set (d : PyDict) (k : String) (v : Json) : PyDict :=
  match d with
  | [] => [(k, v)]
  | kv :: rest => if kv.1 == k then (k, v) :: rest else kv :: set rest k v

/-- The keys of a dict, in order. -/
def keys (d : PyDict) : List String := d.map (·.1)

end PyDict

/-- `.get(k, dflt)` called on an arbitrary JSON value: Python raises
`AttributeError` unless the receiver is a dict. -/
def Json.pyGetD (j : Json) (k : String) (dflt : Json) : Except String Json :=
  match j with
  | .obj d => .ok (PyDict.getD d k dflt)
  | _ => .error "AttributeError: object has no attribute get"

/-- Python `str(x)` for an optional string (used for `str(last_error)`
where `last_error` is `None` or a message). -/
def pyStrOpt : Option String → String
  | none => "None"
  | some s => s

section Extractor
/-!
## `GeminiExtractor.extract_from_pdf` (src/extract.py lines 28–119)

The provider is abstracted by the outcome of the single `files.upload`
call and the outcome of each `models.generate_content` call (`.error e`
models the call raising an exception whose `str` is `e`; provider
exceptions are generic, never `json.JSONDecodeError`, so the
`except json.JSONDecodeError` handler is only entered after a successful
generation whose text failed `json.loads` — at that point `response` is the
current attempt's response and `hasattr(response, 'text')` holds).
`files.delete` raising is irrelevant: `delete_uploaded_file` swallows every
exception, so we only record how often it is invoked.
-/

/-- The opaque handle returned by the provider's upload call. -/
structure UploadedFile where
  uri : String
  mimeType : String
  name : String

/-- `delete_uploaded_file` (src/extract.py lines 236–243): a no-op on
`None`, otherwise one best-effort provider delete whose errors are
ignored (`except Exception: pass`), so the call never raises and its only
observable effect is the attempted deletion; we return the number of
provider delete calls attempted. -/
def delete_uploaded_file (file : Option UploadedFile) : Nat :=
  match file with
  | none => 0
  | some _ => 1

/-- The literal failure dict built at src/extract.py lines 54–59 and
114–119. -/
def failureDict (source_number : Int) (filename : String) (error : String) : Json :=
  Json.obj [("source_number", Json.num source_number),
            ("filename", Json.str filename),
            ("error", Json.str error),
            ("extractions", Json.obj [])]

/-- One fenced-code-block search: Python's
`re.search(r'<fence>(?:json)?\s*\n?(.*?)\n?<fence>', text, re.DOTALL)`
(src/extract.py line 125, `<fence>` being three backticks), implemented as
the backtracking regex engine would run it: leftmost match; the optional
`json` literal and the greedy `\s*` / `\n?` pieces try their longer
alternative first; the lazy `(.*?)` group takes the shortest text that lets
`\n?` + fence close the match.  Helper: Python `\s` on ASCII. -/
def pyIsSpace (c : Char) : Bool :=
  c == ' ' || c == '\t' || c == '\n' || c == '\r' || c == '\x0b' || c == '\x0c'

/-- The three-backtick fence as a character list. -/
def fenceChars : List Char := "```".toList

/-- Lazy `(.*?)\n?` + closing fence: the shortest prefix of `rest` such
that what follows is an optional newline and then the fence. -/
def fencedContentFrom (rest : List Char) : Option (List Char) :=
  (List.range (rest.length + 1)).findSome? (fun k =>
    let tail := rest.drop k
    let closes : List (List Char) :=
      match tail with
      | c :: tl => if c == '\n' then [tl, tail] else [tail]
      | [] => [[]]
    if closes.any (fun r => fenceChars.isPrefixOf r) then some (rest.take k) else none)

/-- After the opening fence and the optional `json` literal: greedy `\s*`
(longest first) then greedy `\n?`, then the lazy content group. -/
def fencedAfterOpen (rest1 : List Char) : Option (List Char) :=
  let wmax := (rest1.takeWhile pyIsSpace).length
  ((List.range (wmax + 1)).reverse).findSome? (fun w =>
    let rest2 := rest1.drop w
    let cands : List (List Char) :=
      match rest2 with
      | c :: tl => if c == '\n' then [tl, rest2] else [rest2]
      | [] => [[]]
    cands.findSome? fencedContentFrom)

/-- Try to match the whole fenced-block pattern starting exactly here. -/
def fencedMatchAt (cs : List Char) : Option (List Char) :=
  if fenceChars.isPrefixOf cs then
    let rest := cs.drop 3
    let cands : List (List Char) :=
      if "json".toList.isPrefixOf rest then [rest.drop 4, rest] else [rest]
    cands.findSome? fencedAfterOpen
  else none

/-- `re.search`: first (leftmost) position at which the pattern matches. -/
def fencedSearch : List Char → Option (List Char)
  | [] => none
  | c :: tl =>
    match fencedMatchAt (c :: tl) with
    | some g => some g
    | none => fencedSearch tl

/-- Captured group of the fenced-block regex on `text`, as a string. -/
def fencedContent (text : String) : Option String :=
  (fencedSearch text.toList).map fun l => String.mk l

/-- `re.search(r'\{.*\}', text, re.DOTALL)` (src/extract.py line 133):
leftmost match with greedy `.*`, i.e. from the first `{` to the last `}`
provided the latter comes after the former. -/
def braceSpan (text : String) : Option String :=
  let cs := text.toList
  match cs.findIdx? (· == '{'), cs.reverse.findIdx? (· == '}') with
  | some i, some r =>
    let j := cs.length - 1 - r
    if i < j then some (String.mk ((cs.drop i).take (j - i + 1))) else none
  | _, _ => none

/-- `GeminiExtractor._extract_json_from_text` (src/extract.py lines
121–140): try the fenced-block capture first, then the brace span; each
candidate is handed to `json.loads`, parse errors being swallowed. -/
def extract_json_from_text (loads : String → Except String Json) (text : String) :
    Option Json :=
  let fromBraces : Option Json :=
    match braceSpan text with
    | some s => (loads s).toOption
    | none => none
  match fencedContent text with
  | some inner =>
    match loads inner with
    | .ok j => some j
    | .error _ => fromBraces
  | none => fromBraces

/-- The generation-and-parse retry loop of `extract_from_pdf`
(src/extract.py lines 70–108), one recursion step per remaining loop
iteration.  `gen a` is the outcome of the attempt-`a` call to
`generate_content`.  Returns (parsed success if any, final `last_error`,
the list of back-off sleeps performed in order, the number of
`generate_content` calls made). -/
def extractLoop (loads : String → Except String Json)
    (gen : Nat → Except String String) :
    Nat → Nat → Option String → Option Json × Option String × List Nat × Nat
  | 0, _, lastError => (none, lastError, [], 0)
  | r + 1, attempt, lastError =>
    let failCont (le : Option String) : Option Json × Option String × List Nat × Nat :=
      -- wait_time = (2 ** attempt) * 2; sleep only if attempt < retry_attempts - 1
      let sleeps := if r > 0 then [2 ^ attempt * 2] else []
      let (res, fe, ss, gc) := extractLoop loads gen r (attempt + 1) le
      (res, fe, sleeps ++ ss, gc + 1)
    match gen attempt with
    | .error e => failCont (some e)
    | .ok text =>
      match loads text with
      | .ok result => (some result, lastError, [], 1)
      | .error e =>
        let le := some ("JSON parse error: " ++ e)
        match extract_json_from_text loads text with
        | some extracted =>
          -- `if extracted:` (src/extract.py line 98): a recovered but
          -- Python-falsy structure is discarded and the attempt fails
          if extracted.truthy then (some extracted, le, [], 1) else failCont le
        | none => failCont le

/-- Observable side effects of one `extract_from_pdf` call. -/
structure ExtractTrace where
  uploadCalls : Nat
  genCalls : Nat
  /-- invocations of `delete_uploaded_file` on the uploaded handle -/
  deleteCalls : Nat
  sleeps : List Nat
deriving Repr, DecidableEq

/-- `GeminiExtractor.extract_from_pdf` (src/extract.py lines 28–119).
`upload` is the outcome of the single `files.upload` call (`.error e`
models it raising `e`); on upload failure the failure dict is returned at
once, before any generation attempt and without touching
`delete_uploaded_file`.  Otherwise the retry loop runs; on a parsed (or
recovered) success that structure is returned, after exhaustion the
failure dict carries `str(last_error)`; on both paths
`delete_uploaded_file` is invoked exactly once on the handle.
The prompt-building step (lines 61–67) only feeds the abstracted
`generate_content` call and has no bearing on the returned record. -/
def extract_from_pdf (loads : String → Except String Json)
    (upload : Except String UploadedFile)
    (gen : Nat → Except String String)
    (pdfName : String) (source_number : Int)
    (retry_attempts : Nat) : Json × ExtractTrace :=
  match upload with
  | .error e =>
    (failureDict source_number pdfName ("Failed to upload PDF: " ++ e),
     ⟨1, 0, 0, []⟩)
  | .ok file =>
    let (res, lastError, sleeps, gc) := extractLoop loads gen retry_attempts 0 none
    match res with
    | some j => (j, ⟨1, gc, delete_uploaded_file (some file), sleeps⟩)
    | none =>
      (failureDict source_number pdfName (pyStrOpt lastError),
       ⟨1, gc, delete_uploaded_file (some file), sleeps⟩)

/-- The outcome of generation attempt `a` after parsing and recovery:
`some j` iff the attempt returns record `j` — directly parsed, or
recovered with a truthy value (the `if extracted:` gate of
src/extract.py line 98 discards a recovered falsy structure) — and
`none` iff the attempt fails. -/
def attemptResult (loads : String → Except String Json)
    (gen : Nat → Except String String) (a : Nat) : Option Json :=
  match gen a with
  | .error _ => none
  | .ok text =>
    match loads text with
    | .ok j => some j
    | .error _ =>
      match extract_json_from_text loads text with
      | some extracted => if extracted.truthy then some extracted else none
      | none => none

/-- The `last_error` message recorded by a failed attempt `a`. -/
def attemptErr (loads : String → Except String Json)
    (gen : Nat → Except String String) (a : Nat) : String :=
  match gen a with
  | .error e => e
  | .ok text =>
    match loads text with
    | .ok _ => ""
    | .error e => "JSON parse error: " ++ e

end Extractor

section Batch
/-!
## `run_extraction_batch` (src/extract.py lines 246–324)

The on-disk output folder is modelled as a `Store`: an association list
from file path to the JSON it holds (`json.dump` followed by a later
`json.load` round-trips the record, so the store holds `Json` directly).
A fresh write targets a path that the existence check just found absent,
so appending keeps the list's first-match lookup in step with the file
system.  The extractor is abstracted as a function of the source number
and pdf path, as `extract_from_pdf` has no other varying inputs per call.
The `sources` dict is an insertion-ordered association list with the
unique keys a Python dict guarantees.
-/

/-- The persisted extraction records: path ↦ stored JSON. -/
abbrev Store := List (String × Json)

/-- Python `f"\x7bsource_num:02d\x7d"`: zero-pad to width 2 (a sign counts
toward the width, as in Python). -/
def pad2 (n : Int) : String :=
  if 0 ≤ n ∧ n < 10 then "0" ++ toString n else toString n

/-- `Path(folder) / name` rendered as a string (joining an empty name
leaves the folder path unchanged, as in pathlib). -/
def pathJoin (folder name : String) : String :=
  if name == "" then folder else folder ++ "/" ++ name

/-- The final path component. -/
def lastComponent (p : String) : String :=
  String.mk ((p.toList.reverse.takeWhile (· != '/')).reverse)

/-- `Path(p).stem`: the final component without its suffix; a dot at the
start or the very end of the name does not open a suffix. -/
def pathStem (p : String) : String :=
  let cs := (lastComponent p).toList
  match cs.reverse.findIdx? (· == '.') with
  | none => String.mk cs
  | some r =>
    let i := cs.length - 1 - r
    if 0 < i ∧ i < cs.length - 1 then String.mk (cs.take i) else String.mk cs

/-- `source.get("filename", f"\x7bsource_num:02d\x7d_unknown.pdf")`
(src/extract.py line 282); the value is then used as a path component, so
a non-string present value would make `Path / filename` raise. -/
def sourceFilename (source_num : Int) (source : PyDict) : Except String String :=
  match PyDict.getD source "filename"
      (Json.str (pad2 source_num ++ "_unknown.pdf")) with
  | .str s => .ok s
  | _ => .error "TypeError: argument should be a str"

/-- The body of the `for source_num, source in sources_in_range.items()`
loop (src/extract.py lines 281–322), one recursion step per source.
Returns (the accumulated `results` list, the final store, the source
numbers for which `extractor.extract_from_pdf` was invoked, in order).
The `time.sleep(1)` after each fresh extraction and the progress printing
have no bearing on the returned data. -/
def batchLoop (extract : Int → String → Json)
    (pdf_folder output_folder : String) :
    List (Int × PyDict) → Store → Except String (List Json × Store × List Int)
  | [], store => .ok ([], store, [])
  | (source_num, source) :: rest, store => do
    let filename ← sourceFilename source_num source
    let pdf_path := pathJoin pdf_folder filename
    let json_path := pathJoin output_folder (pathStem pdf_path ++ ".json")
    match PyDict.get store json_path with
    | some previous => do
      -- skip if already processed: load and reuse, no extractor call
      let (rs, st, calls) ← batchLoop extract pdf_folder output_folder rest store
      .ok (previous :: rs, st, calls)
    | none => do
      let result := extract source_num pdf_path
      let store' := store ++ [(json_path, result)]
      let (rs, st, calls) ← batchLoop extract pdf_folder output_folder rest store'
      .ok (result :: rs, st, source_num :: calls)

/-- The effective upper bound: `end_at if end_at is not None else
(max(sources.keys()) if sources else 0)` (src/extract.py lines 275–276). -/
def resolveEnd (sources : List (Int × PyDict)) : Option Int → Int
  | some e => e
  | none =>
    match (sources.map (·.1)).max? with
    | some m => m
    | none => 0

/-- The in-range selection (src/extract.py line 279): the dict
comprehension keeps the mapping's own iteration order and the inclusive
bounds. -/
def selectedSources (sources : List (Int × PyDict)) (start_from : Int)
    (end_at : Option Int) : List (Int × PyDict) :=
  sources.filter (fun kv => decide (start_from ≤ kv.1 ∧ kv.1 ≤ resolveEnd sources end_at))

/-- The output key a source's record is persisted under:
`output_folder / (Path(pdf_folder / filename).stem + ".json")`
(src/extract.py lines 282–284). -/
def sourceJsonKey (pdf_folder output_folder : String) (source_num : Int)
    (source : PyDict) : Except String String := do
  let filename ← sourceFilename source_num source
  pure (pathJoin output_folder (pathStem (pathJoin pdf_folder filename) ++ ".json"))

/-- The output key of a source whose filename resolution is already
known, as a total function (used to state the batch theorems). -/
def batchKey (pdf_folder output_folder : String) (fnf : Int × PyDict → String)
    (p : Int × PyDict) : String :=
  pathJoin output_folder (pathStem (pathJoin pdf_folder (fnf p)) ++ ".json")

/-- `run_extraction_batch` (src/extract.py lines 246–324): resolve the
default upper bound, select the in-range sources in the mapping's own
iteration order, and run the per-source loop. -/
def run_extraction_batch (extract : Int → String → Json)
    (pdf_folder : String) (sources : List (Int × PyDict))
    (output_folder : String) (store : Store)
    (start_from : Int) (end_at : Option Int) :
    Except String (List Json × Store × List Int) :=
  batchLoop extract pdf_folder output_folder
    (selectedSources sources start_from end_at) store

end Batch

section Aggregation
/-!
## `src/aggregate.py`

The aggregation functions receive the loaded extraction-record dicts, the
research-question definitions and (for the narrative) the project metadata
dict.  File writes, the pandas `DataFrame`/`to_excel` call and
`datetime.now()` are external; the embeddings produce the `rows` list and
the `lines` list the Python code hands to them, with the generation
timestamp a parameter.  Sites where Python would raise (attribute lookup
on a non-dict, `len` of a non-sized value, string concatenation with a
non-string, order comparison of unorderable sort keys — the latter
modelled whenever a key is extracted, where Python only raises once two
unorderable keys actually get compared) are `.error` outcomes.
-/

/-- A research question `\x7bid, text, keywords\x7d` (keywords feed only
the prompt builder, which is outside the aggregation logic). -/
structure RQ where
  id : String
  text : String
  keywords : List String

/-- Python `len(x)` (strings measured in code points, as in Python). -/
def pyLen : Json → Except String Nat
  | .str s => .ok s.length
  | .arr l => .ok l.length
  | .obj l => .ok l.length
  | _ => .error "TypeError: object has no len"

/-- Python `x[0]`. -/
def pyIndex0 : Json → Except String Json
  | .arr (x :: _) => .ok x
  | .arr [] => .error "IndexError: list index out of range"
  | .str s =>
    match s.toList with
    | c :: _ => .ok (.str (String.mk [c]))
    | [] => .error "IndexError: string index out of range"
  | .obj _ => .error "KeyError: 0"
  | _ => .error "TypeError: object is not subscriptable"

/-- The truncation idiom `if len(x) > lim: x = x[:cut] + "..."` used at
src/aggregate.py lines 98–100 (quotes, 300/297) and 190–192 (findings,
500/497); the `+ "..."` step needs a string. -/
def truncatePy (lim cut : Nat) (j : Json) : Except String Json := do
  let n ← pyLen j
  if n > lim then
    match j with
    | .str s => pure (Json.str (s.take cut ++ "..."))
    | _ => .error "TypeError: can only concatenate str"
  else
    pure j

/-- Python `repr(x)` for the JSON-ish values the pipeline handles (used by
`str` on lists/dicts; string escaping inside `repr` is not modelled — it
is never reached by records conforming to the data model, which the
theorems assume). -/
def Json.pyRepr : Json → String
  | .null => "None"
  | .bool b => if b then "True" else "False"
  | .num n => toString n
  | .str s => "'" ++ s ++ "'"
  | .arr l => "[" ++ String.intercalate ", " (l.attach.map (fun x => Json.pyRepr x.1)) ++ "]"
  | .obj l => "\x7b" ++ String.intercalate ", "
      (l.attach.map (fun kv => "'" ++ kv.1.1 ++ "': " ++ Json.pyRepr kv.1.2)) ++ "\x7d"
decreasing_by
  · have := List.sizeOf_lt_of_mem x.2
    simp [Json.arr.sizeOf_spec]
    omega
  · have h := List.sizeOf_lt_of_mem kv.2
    obtain ⟨⟨k, v⟩, hm⟩ := kv
    simp [Json.obj.sizeOf_spec] at *
    omega

/-- Python `str(x)` as an f-string renders it. -/
def Json.pyFormat : Json → String
  | .str s => s
  | other => other.pyRepr

/-- Python `str.strip()` / `rstrip(chars)` / `lower()` (ASCII lowering —
the pipeline's identifiers and delimiter scan are ASCII). -/
def pyStrip (s : String) : String :=
  String.mk (((s.toList.dropWhile pyIsSpace).reverse.dropWhile pyIsSpace).reverse)

/-- `str.rstrip(chars)`. -/
def pyRstrip (s : String) (set : List Char) : String :=
  String.mk ((s.toList.reverse.dropWhile (set.contains ·)).reverse)

/-- `str.lower()` (ASCII). -/
def pyLower (s : String) : String := s.map Char.toLower

/-- `hay.find(needle)`: first index at which `needle` occurs (`in` is
`find ≠ -1`). -/
def strFind (hay needle : String) : Option Nat :=
  let h := hay.toList
  let n := needle.toList
  (List.range (h.length + 1)).find? (fun i => n.isPrefixOf (h.drop i))

/-- `get_rq_short_title`'s delimiter scan (src/aggregate.py lines
233–238): first delimiter occurring in the lowered text at an index
greater than 20 truncates and breaks; a delimiter found at 20 or earlier
does not break the scan. -/
def shortTitleScan (text : String) : List String → String
  | [] => text
  | d :: ds =>
    match strFind (pyLower text) d with
    | some idx => if idx > 20 then String.mk (text.toList.take idx) else shortTitleScan text ds
    | none => shortTitleScan text ds

/-- `get_rq_short_title` (src/aggregate.py lines 227–245). -/
def get_rq_short_title (rq_text : String) : String :=
  let text := pyStrip rq_text
  let text := shortTitleScan text ["?", "impact", "affect", "influence", "relationship"]
  let text := pyRstrip (pyStrip text) [',', '.', ':', ';']
  if text.length > 60 then text.take 57 ++ "..." else text

/-- One row of the Excel matrix (`generate_excel_matrix`,
src/aggregate.py lines 161–198): the error shape for records carrying an
`"error"` key, otherwise the 8 base columns followed by 4 columns per
research question, appended in question-list order via dict assignment. -/
def matrixRowLoop (ext : PyDict) : List RQ → PyDict → Except String PyDict
  | [], row => .ok row
  | rq :: rest, row => do
    let exts := PyDict.getD ext "extractions" (Json.obj [])
    let rq_data ← exts.pyGetD rq.id (Json.obj [])
    let has_ev ← rq_data.pyGetD "has_evidence" Json.null
    let finding0 ← rq_data.pyGetD "answer" (Json.str "")
    let finding ← truncatePy 500 497 finding0
    let effect ← rq_data.pyGetD "effect_size" Json.null
    let direction ← rq_data.pyGetD "direction" Json.null
    let row := PyDict.set row (rq.id ++ " Evidence")
      (Json.str (if has_ev.truthy then "Y" else "N"))
    let row := PyDict.set row (rq.id ++ " Finding") finding
    let row := PyDict.set row (rq.id ++ " Effect Size") effect
    let row := PyDict.set row (rq.id ++ " Direction") direction
    matrixRowLoop ext rest row

/-- The row built for one extraction record. -/
def matrixRow (research_questions : List RQ) (ext : PyDict) : Except String PyDict :=
  if PyDict.hasKey ext "error" then
    .ok [("Source #", PyDict.getD ext "source_number" Json.null),
         ("Filename", PyDict.getD ext "filename" Json.null),
         ("Status", Json.str "Error"),
         ("Error", PyDict.getD ext "error" Json.null)]
  else do
    let sampleRaw := PyDict.getD ext "sample" (Json.obj [])
    -- `ext.get("sample", \x7b\x7d) or \x7b\x7d`: a falsy value (None, \x7b\x7d) becomes \x7b\x7d
    let sample := if sampleRaw.truthy then sampleRaw else Json.obj []
    let n ← sample.pyGetD "n" Json.null
    let ageRange ← sample.pyGetD "age_range" Json.null
    let population ← sample.pyGetD "population" Json.null
    let row : PyDict :=
      [("Source #", PyDict.getD ext "source_number" Json.null),
       ("Citation", PyDict.getD ext "citation" Json.null),
       ("Title", PyDict.getD ext "title" Json.null),
       ("Study Type", PyDict.getD ext "study_type" Json.null),
       ("Sample N", n),
       ("Age Range", ageRange),
       ("Population", population),
       ("Status", Json.str "Success")]
    matrixRowLoop ext research_questions row

/-- The `rows` list handed to `pd.DataFrame` by `generate_excel_matrix`
(src/aggregate.py lines 150–203); the spreadsheet write itself is external
I/O. -/
def generate_excel_matrix_rows (extractions : List PyDict)
    (research_questions : List RQ) : Except String (List PyDict) :=
  match extractions with
  | [] => .ok []
  | ext :: rest => do
    let row ← matrixRow research_questions ext
    let rows ← generate_excel_matrix_rows rest research_questions
    pure (row :: rows)

/-- The evidence test shared by `calculate_coverage_stats` (src/aggregate.py
lines 213–217) and the narrative/partition code (lines 61–62):
`ext.get("extractions", \x7b\x7d).get(rq_id, \x7b\x7d).get("has_evidence", False)`,
used for its truthiness. -/
def hasEvidenceFor (ext : PyDict) (rq_id : String) : Except String Bool := do
  let exts := PyDict.getD ext "extractions" (Json.obj [])
  let rq_data ← exts.pyGetD rq_id (Json.obj [])
  let has_ev ← rq_data.pyGetD "has_evidence" (Json.bool false)
  pure has_ev.truthy

/-- `sum(1 for ext in extractions if "error" not in ext and …has_evidence…)`:
the conjunction short-circuits, so error records never have their
extractions looked at. -/
def countWithEvidence (rq_id : String) : List PyDict → Except String Nat
  | [] => .ok 0
  | ext :: rest => do
    let n ← countWithEvidence rq_id rest
    if PyDict.hasKey ext "error" then
      pure n
    else do
      let b ← hasEvidenceFor ext rq_id
      pure (if b then n + 1 else n)

/-- One entry of the stats dict built by `calculate_coverage_stats`. -/
structure CovStat where
  with_evidence : Nat
  total : Nat
  percentage : ℚ
deriving DecidableEq

/-- The per-question loop of `calculate_coverage_stats` (src/aggregate.py
lines 211–222), building the stats dict in question order. -/
def covStatsLoop (extractions : List PyDict) (total_sources : Nat) :
    List RQ → Except String (List (String × CovStat))
  | [] => .ok []
  | rq :: rest => do
    let w ← countWithEvidence rq.id extractions
    let stats ← covStatsLoop extractions total_sources rest
    pure ((rq.id,
      ⟨w, total_sources,
       if total_sources > 0 then (w : ℚ) / (total_sources : ℚ) * 100 else 0⟩) :: stats)

/-- `calculate_coverage_stats` (src/aggregate.py lines 206–224); the float
percentage is modelled exactly as a rational. -/
def calculate_coverage_stats (extractions : List PyDict)
    (research_questions : List RQ) : Except String (List (String × CovStat)) :=
  covStatsLoop extractions
    ((extractions.filter (fun e => !PyDict.hasKey e "error")).length) research_questions

end Aggregation

section Narrative
/-!
## `generate_markdown_review` (src/aggregate.py lines 21–147)

The function builds a `lines` list and writes `"\n".join(lines)`; we
produce the lines, with `datetime.now().strftime(...)` a parameter.  The
`join` raises `TypeError` if a non-string (a malformed `answer` field)
got appended, so the embedding demands a string at that site.
-/

/-- `\x7bpct:.0f\x7d`: fixed-point formatting with zero decimals rounds
half-to-even (the pipeline's percentages are never negative, so the
negative-zero display cannot arise). -/
def roundHalfEven (q : ℚ) : Int :=
  let f := ⌊q⌋
  let frac := q - f
  if frac < 1 / 2 then f
  else if 1 / 2 < frac then f + 1
  else if f % 2 = 0 then f else f + 1

/-- Render `f"(\x7bpct:.0f\x7d%)"`'s number. -/
def formatDot0f (q : ℚ) : String := toString (roundHalfEven q)

/-- The coverage line of the narrative (src/aggregate.py line 71). -/
def evidenceFoundLine (with_ev total : Nat) (pct : ℚ) : String :=
  "**Evidence found in " ++ toString with_ev ++ "/" ++ toString total ++
    " sources (" ++ formatDot0f pct ++ "%)**"

/-- The per-question partition of records (src/aggregate.py lines 54–65):
error records are skipped; a truthy
`extractions.get(rq_id, \x7b\x7d).get("has_evidence", False)` sends the
record (with its evidence entry) to the with-evidence list, anything else
to the without-evidence list, keeping record order. -/
def partitionEvidence (rq_id : String) :
    List PyDict → Except String (List (PyDict × Json) × List PyDict)
  | [] => .ok ([], [])
  | ext :: rest => do
    let (ws, wos) ← partitionEvidence rq_id rest
    if PyDict.hasKey ext "error" then
      pure (ws, wos)
    else do
      let exts := PyDict.getD ext "extractions" (Json.obj [])
      let rq_data ← exts.pyGetD rq_id (Json.obj [])
      let has_ev ← rq_data.pyGetD "has_evidence" (Json.bool false)
      if has_ev.truthy then pure ((ext, rq_data) :: ws, wos)
      else pure (ws, ext :: wos)

/-- The supporting-quote lines of one finding paragraph (src/aggregate.py
lines 94–103): shown only when the quotes value is truthy, non-empty and
its first element's `quote` is truthy; the quote is truncated to 300
characters and its location appended when truthy. -/
def quoteLinesFor (quotes : Json) : Except String (List String) :=
  if quotes.truthy then do
    let n ← pyLen quotes
    if n > 0 then do
      let first ← pyIndex0 quotes
      let quote_text ← first.pyGetD "quote" (Json.str "")
      if quote_text.truthy then do
        let qt ← truncatePy 300 297 quote_text
        let loc ← first.pyGetD "location" Json.null
        let locLines := if loc.truthy then ["> - " ++ loc.pyFormat] else []
        pure (["", "> " ++ qt.pyFormat] ++ locLines)
      else pure []
    else pure []
  else pure []

/-- One finding paragraph (src/aggregate.py lines 78–105). -/
def findingBlock (ext : PyDict) (rq_data : Json) : Except String (List String) := do
  let source_num := PyDict.getD ext "source_number" (Json.str "?")
  let citation := PyDict.getD ext "citation" (Json.str "Unknown")
  let answer ← rq_data.pyGetD "answer" (Json.str "")
  let effect_size ← rq_data.pyGetD "effect_size" Json.null
  let _direction ← rq_data.pyGetD "direction" Json.null
  let quotes ← rq_data.pyGetD "supporting_quotes" (Json.arr [])
  let answerStr ←
    match answer with
    | .str s => pure s
    | _ => Except.error "TypeError: sequence item: expected str instance"
  let effectLines := if effect_size.truthy then
    ["*Effect size: " ++ effect_size.pyFormat ++ "*"] else []
  let quoteLines ← quoteLinesFor quotes
  pure (["**" ++ citation.pyFormat ++ " [Source " ++ source_num.pyFormat ++ "]**",
         "", answerStr] ++ effectLines ++ quoteLines ++ [""])

/-- All finding paragraphs, in record order. -/
def findingsLoop : List (PyDict × Json) → Except String (List String)
  | [] => .ok []
  | (ext, rq_data) :: rest => do
    let block ← findingBlock ext rq_data
    let more ← findingsLoop rest
    pure (block ++ more)

/-- The without-evidence listing (src/aggregate.py lines 111–114). -/
def withoutLines (l : List PyDict) : List String :=
  l.map (fun ext =>
    "- Source " ++ (PyDict.getD ext "source_number" (Json.str "?")).pyFormat ++
    ": " ++ (PyDict.getD ext "citation" (Json.str "Unknown")).pyFormat)

/-- One research question's section (src/aggregate.py lines 44–118). -/
def rqSection (extractions : List PyDict) (rq : RQ) : Except String (List String) := do
  let rq_text := pyStrip rq.text
  let (withEv, withoutEv) ← partitionEvidence rq.id extractions
  let total := (extractions.filter (fun e => !PyDict.hasKey e "error")).length
  let with_ev := withEv.length
  let pct : ℚ := if total > 0 then (with_ev : ℚ) / (total : ℚ) * 100 else 0
  let findings ←
    if withEv.isEmpty then pure [] else do
      let blocks ← findingsLoop withEv
      pure (["### Summary of Findings", ""] ++ blocks)
  let without :=
    if withoutEv.isEmpty then [] else
      ["### Sources Without Evidence for This RQ", ""] ++ withoutLines withoutEv ++ [""]
  pure (["## " ++ rq.id ++ ": " ++ get_rq_short_title rq_text, "", "> " ++ rq_text, ""]
    ++ [evidenceFoundLine with_ev total pct, ""] ++ findings ++ without ++ ["---", ""])

/-- All question sections in question order. -/
def rqSectionsLoop (extractions : List PyDict) : List RQ → Except String (List String)
  | [] => .ok []
  | rq :: rest => do
    let sec ← rqSection extractions rq
    let more ← rqSectionsLoop extractions rest
    pure (sec ++ more)

/-- The trailing errors section (src/aggregate.py lines 121–132). -/
def errorsSection (extractions : List PyDict) : List String :=
  let errs := extractions.filter (fun e => PyDict.hasKey e "error")
  if errs.isEmpty then [] else
    ["## Extraction Errors", ""] ++
    errs.map (fun ext =>
      "- Source " ++ (PyDict.getD ext "source_number" (Json.str "?")).pyFormat ++
      " (" ++ (PyDict.getD ext "filename" (Json.str "Unknown")).pyFormat ++
      "): " ++ (PyDict.getD ext "error" (Json.str "Unknown error")).pyFormat) ++
    ["", "---", ""]

/-- `sorted(..., key=lambda x: x.get("source_number", 0))` sorts with
integer keys; we extract every key up front (Python would only raise once
two unorderable keys got compared, a distinction without a difference on
the record domain the theorems assume). -/
def refSortKey (ext : PyDict) : Except String Int :=
  match PyDict.getD ext "source_number" (Json.num 0) with
  | .num n => .ok n
  | _ => .error "TypeError: unsupported comparison for sort"

/-- Keys for the references sort. -/
def keyedRefs : List PyDict → Except String (List (Int × PyDict))
  | [] => .ok []
  | ext :: rest => do
    let k ← refSortKey ext
    let more ← keyedRefs rest
    pure ((k, ext) :: more)

/-- Stable insertion into an ascending list (an earlier element stays
before later elements with an equal key, as Python's stable sort does). -/
def insertByKey {α : Type} (key : α → Int) (x : α) : List α → List α
  | [] => [x]
  | y :: ys => if key x ≤ key y then x :: y :: ys else y :: insertByKey key x ys

/-- Stable ascending sort by integer key. -/
def sortByKey {α : Type} (key : α → Int) : List α → List α
  | [] => []
  | x :: xs => insertByKey key x (sortByKey key xs)

/-- The references section (src/aggregate.py lines 135–142). -/
def referencesSection (extractions : List PyDict) : Except String (List String) := do
  let keyed ← keyedRefs extractions
  let sorted := sortByKey (fun kv => kv.1) keyed
  pure (["## References", ""] ++
    sorted.filterMap (fun kv =>
      if PyDict.hasKey kv.2 "error" then none
      else some ((PyDict.getD kv.2 "source_number" (Json.str "?")).pyFormat ++ ". " ++
        (PyDict.getD kv.2 "citation" (Json.str "Unknown")).pyFormat ++ ". " ++
        (PyDict.getD kv.2 "title" (Json.str "")).pyFormat)))

/-- `generate_markdown_review` (src/aggregate.py lines 21–147): the full
lines list the function joins and writes. -/
def generate_markdown_review (now : String) (extractions : List PyDict)
    (research_questions : List RQ) (project : PyDict) :
    Except String (List String) := do
  let header :=
    ["# Literature Review: " ++ (PyDict.getD project "name" (Json.str "Untitled")).pyFormat,
     "",
     "**Generated:** " ++ now,
     "**Requester:** " ++ (PyDict.getD project "requester" (Json.str "Unknown")).pyFormat,
     "**Sources analysed:** " ++ toString extractions.length,
     "**Research questions:** " ++ toString research_questions.length,
     "", "---", ""]
  let sections ← rqSectionsLoop extractions research_questions
  let refs ← referencesSection extractions
  pure (header ++ sections ++ errorsSection extractions ++ refs)

end Narrative



section SpecSide
/-!
Spec-side characterisations (named after the spec's wording, §4.3/§8) that
the aggregation theorems compare the code's output against, plus the
well-formedness predicate carving out the ExtractionRecord data model of
§3 (with the §7-tolerated absences: missing question keys, missing or
null sample, missing optional fields).
-/

/-- Count of non-error records (spec: `count(non-error records)`). -/
def specNonError (extractions : List PyDict) : Nat :=
  (extractions.filter (fun e => !PyDict.hasKey e "error")).length

/-- The extraction entry a record holds for a question id, `\x7b\x7d` when
absent (total on the well-formed domain). -/
def specEntry (ext : PyDict) (rq_id : String) : PyDict :=
  match PyDict.getD ext "extractions" (Json.obj []) with
  | .obj entries =>
    match PyDict.getD entries rq_id (Json.obj []) with
    | .obj entry => entry
    | _ => []
  | _ => []

/-- Spec: `has_evidence=true` for a record and question (truthiness of the
stored flag, false when the question key is absent). -/
def specHasEvidence (ext : PyDict) (rq_id : String) : Bool :=
  (PyDict.getD (specEntry ext rq_id) "has_evidence" (Json.bool false)).truthy

/-- Count of non-error records with evidence for a question (spec:
`count(has_evidence=true among non-error records)`). -/
def specEvCount (extractions : List PyDict) (rq_id : String) : Nat :=
  (extractions.filter
    (fun e => !PyDict.hasKey e "error" && specHasEvidence e rq_id)).length

/-- The question key is expected but absent from the record's extractions
mapping. -/
def entryMissing (ext : PyDict) (rq_id : String) : Bool :=
  match PyDict.getD ext "extractions" (Json.obj []) with
  | .obj entries => !PyDict.hasKey entries rq_id
  | _ => false

/-- The 8 base columns of a Success matrix row, in order. -/
def successBaseKeys : List String :=
  ["Source #", "Citation", "Title", "Study Type", "Sample N", "Age Range",
   "Population", "Status"]

/-- The 4 per-question columns of a Success matrix row, in order. -/
def rqBlockKeys (rq : RQ) : List String :=
  [rq.id ++ " Evidence", rq.id ++ " Finding", rq.id ++ " Effect Size",
   rq.id ++ " Direction"]

/-- The ellipsis truncation applied to a finding (identity on the
non-string values the well-formed domain excludes). -/
def truncAnswer : Json → Json
  | .str s => if s.length > 500 then .str (s.take 497 ++ "...") else .str s
  | other => other

/-- The 8 base cells of a Success matrix row. -/
def successRowBase (ext : PyDict) : PyDict :=
  let sampleRaw := PyDict.getD ext "sample" (Json.obj [])
  let sample := if sampleRaw.truthy then sampleRaw else Json.obj []
  let sampleD : PyDict := match sample with | .obj d => d | _ => []
  [("Source #", PyDict.getD ext "source_number" Json.null),
   ("Citation", PyDict.getD ext "citation" Json.null),
   ("Title", PyDict.getD ext "title" Json.null),
   ("Study Type", PyDict.getD ext "study_type" Json.null),
   ("Sample N", PyDict.getD sampleD "n" Json.null),
   ("Age Range", PyDict.getD sampleD "age_range" Json.null),
   ("Population", PyDict.getD sampleD "population" Json.null),
   ("Status", Json.str "Success")]

/-- The 4 cells one question contributes to a Success matrix row. -/
def blockCells (ext : PyDict) (rq : RQ) : PyDict :=
  let entry := specEntry ext rq.id
  [(rq.id ++ " Evidence",
    Json.str (if (PyDict.getD entry "has_evidence" Json.null).truthy then "Y" else "N")),
   (rq.id ++ " Finding", truncAnswer (PyDict.getD entry "answer" (Json.str ""))),
   (rq.id ++ " Effect Size", PyDict.getD entry "effect_size" Json.null),
   (rq.id ++ " Direction", PyDict.getD entry "direction" Json.null)]

/-- A supporting-quote element of the data model: a dict whose `quote`, if
present, is a string. -/
def wfQuote : Json → Bool
  | .obj entry =>
    match PyDict.get entry "quote" with
    | none => true
    | some (.str _) => true
    | _ => false
  | _ => false

/-- An evidence entry of the data model: a dict whose `answer`, if
present, is a string, and whose `supporting_quotes`, if present, is null
or a list of quote dicts. -/
def wfEntryVal : Json → Bool
  | .obj entry =>
    (match PyDict.get entry "answer" with
     | none => true
     | some (.str _) => true
     | _ => false) &&
    (match PyDict.get entry "supporting_quotes" with
     | none => true
     | some .null => true
     | some (.arr qs) => qs.all wfQuote
     | _ => false)
  | _ => false

/-- An extraction record of the data model (§3), tolerant of the §7
absences: `source_number`, if present, is an integer; a non-error record's
`sample`, if present, is a dict or null, and its `extractions`, if
present, is a dict of evidence entries (question keys may be missing). -/
def wfRecord (ext : PyDict) : Bool :=
  (match PyDict.get ext "source_number" with
   | none => true
   | some (.num _) => true
   | _ => false) &&
  (PyDict.hasKey ext "error" ||
    ((match PyDict.get ext "sample" with
      | none => true
      | some .null => true
      | some (.obj _) => true
      | _ => false) &&
     (match PyDict.getD ext "extractions" (Json.obj []) with
      | .obj entries => entries.all (fun kv => wfEntryVal kv.2)
      | _ => false)))

end SpecSide

section Fixtures
/-!
Concrete mock collaborators used to instantiate the theorems: a mock
`json.loads` that recognises the fixture payload (the spec's recovery
example), and mock providers for the retry scenarios.
-/

/-- The JSON object of the fixture payload. -/
def fixtureParsed : Json := Json.obj [("source_number", Json.num 1)]

/-- The fixture payload text. -/
def fixturePayload : String := "\x7b\"source_number\": 1\x7d"

/-- A mock `json.loads` recognising exactly the fixture payload. -/
def loadsFix : String → Except String Json := fun s =>
  if s = fixturePayload then .ok fixtureParsed
  else .error "Expecting value: line 1 column 1 (char 0)"

/-- A mock upload handle. -/
def fileFix : UploadedFile := ⟨"files/abc123", "application/pdf", "files/abc123"⟩

/-- The spec's recovery example: fixture payload wrapped in a fenced
markdown block. -/
def exampleFencedText : String :=
  "Here you go:\n```json\n" ++ fixturePayload ++ "\n```"

/-- Mock provider that fails the first 2 generation attempts and then
returns the fixture payload. -/
def genFailTwice : Nat → Except String String := fun a =>
  if a < 2 then .error "503 UNAVAILABLE" else .ok fixturePayload

/-- Mock provider whose generation always fails. -/
def genAllFail : Nat → Except String String := fun _ =>
  .error "503 UNAVAILABLE"

/-- Mock provider that always returns the fenced (malformed-but-
recoverable) text. -/
def genFenced : Nat → Except String String := fun _ => .ok exampleFencedText

/-- A mock `json.loads` recognising exactly the empty object. -/
def loadsEmptyObj : String → Except String Json := fun s =>
  if s = "\x7b\x7d" then .ok (Json.obj [])
  else .error "Expecting value: line 1 column 1 (char 0)"

/-- An empty JSON object wrapped in a fenced markdown block: its recovery
parses but yields a Python-falsy value. -/
def emptyFencedText : String := "Here:\n```json\n\x7b\x7d\n```"

/-- Mock provider that always returns the fenced empty object. -/
def genEmptyFenced : Nat → Except String String := fun _ => .ok emptyFencedText

/-- Batch fixture: a source record with an explicit filename. -/
def srcKong : PyDict := [("filename", Json.str "01_kong.pdf")]

/-- Batch fixture: a source record with no filename (the batch falls back
to the zero-padded default). -/
def srcNoName : PyDict := []

/-- Batch fixture sources mapping, ascending insertion order. -/
def sourcesFix : List (Int × PyDict) := [(1, srcKong), (2, srcNoName)]

/-- The output keys of `sourcesFix` under folders `"pdfs"`/`"out"`. -/
def keyfFix : Int × PyDict → String := fun p =>
  if p.1 = 1 then "out/01_kong.json" else "out/02_unknown.json"

/-- A mock extractor returning a failure-shaped record tagged with its
inputs. -/
def extractFix : Int → String → Json := fun n p =>
  Json.obj [("source_number", Json.num n), ("filename", Json.str p),
            ("error", Json.str "mock"), ("extractions", Json.obj [])]

/-- A sources mapping whose insertion order is descending by number. -/
def sourcesDesc : List (Int × PyDict) :=
  [(2, [("filename", Json.str "02_b.pdf")]), (1, [("filename", Json.str "01_a.pdf")])]

/-- The filenames of `sourcesDesc`. -/
def fnfDesc : Int × PyDict → String := fun p =>
  if p.1 = 2 then "02_b.pdf" else "01_a.pdf"

/-- A mock extractor tagging each record with its source number only. -/
def extractNum : Int → String → Json := fun n _ => Json.num n

/-- Aggregation fixture: the research question used by the witnesses. -/
def rqFix : RQ :=
  ⟨"RQ1", "Does technology use impact adolescent wellbeing outcomes?", ["technology"]⟩

/-- Aggregation fixture: a full Success record with evidence. -/
def recEvA : PyDict :=
  [("source_number", Json.num 1), ("citation", Json.str "Kong et al. (2023)"),
   ("title", Json.str "Media multitasking meta-analysis"),
   ("study_type", Json.str "meta-analysis"),
   ("sample", Json.obj [("n", Json.num 50), ("age_range", Json.str "12-18"),
     ("population", Json.str "adolescents")]),
   ("extractions", Json.obj [("RQ1", Json.obj
     [("has_evidence", Json.bool true), ("answer", Json.str "Yes, strongly."),
      ("supporting_quotes", Json.arr [Json.obj
        [("quote", Json.str "a key quote"), ("location", Json.str "p. 3")]]),
      ("effect_size", Json.str "r = 0.35"), ("direction", Json.str "negative")])])]

/-- Aggregation fixture: a second Success record with evidence. -/
def recEvB : PyDict :=
  [("source_number", Json.num 2), ("citation", Json.str "Rioja (2023)"),
   ("extractions", Json.obj [("RQ1", Json.obj
     [("has_evidence", Json.bool true), ("answer", Json.str "Some support.")])])]

/-- Aggregation fixture: a Success record without evidence. -/
def recNoEv : PyDict :=
  [("source_number", Json.num 3),
   ("extractions", Json.obj [("RQ1", Json.obj
     [("has_evidence", Json.bool false),
      ("answer", Json.str "No relevant evidence in this article.")])])]

/-- Aggregation fixture: a Success record whose extractions mapping lacks
the expected question key. -/
def recMissingKey : PyDict :=
  [("source_number", Json.num 4), ("extractions", Json.obj [])]

/-- Aggregation fixture: a Success record with a null sample field. -/
def recNullSample : PyDict :=
  [("source_number", Json.num 5), ("sample", Json.null),
   ("extractions", Json.obj [])]

/-- Aggregation fixture: a Failure record. -/
def recErr : PyDict :=
  [("source_number", Json.num 6), ("filename", Json.str "06_x.pdf"),
   ("error", Json.str "Failed to upload PDF: boom"),
   ("extractions", Json.obj [])]

/-- Aggregation fixture: a bare Success record (only a source number). -/
def recPlain : PyDict := [("source_number", Json.num 1)]

end Fixtures

section ExtractorLemmas

/-- Splitting the back-off sleep list at its first element. -/
lemma sleeps_range_succ (att r : ℕ) :
    (List.range (r + 1)).map (fun i => 2 ^ (att + i) * 2) =
      2 ^ att * 2 :: (List.range r).map (fun i => 2 ^ (att + 1 + i) * 2) := by
  rw [List.range_succ_eq_map]
  simp only [List.map_cons, List.map_map, Nat.add_zero]
  refine congrArg _ (List.map_congr_left ?_)
  intro a _
  simp only [Function.comp_apply]
  rw [show att + (a + 1) = att + 1 + a by omega]

/-- If every one of the `r + 1` remaining attempts fails, the loop performs
them all, sleeps after each but the last, and ends carrying the last
attempt's error. -/
lemma extractLoop_all_fail (loads : String → Except String Json)
    (gen : Nat → Except String String) :
    ∀ (r att : ℕ) (le : Option String),
      (∀ i, i < r + 1 → attemptResult loads gen (att + i) = none) →
      extractLoop loads gen (r + 1) att le =
        (none, some (attemptErr loads gen (att + r)),
         (List.range r).map (fun i => 2 ^ (att + i) * 2), r + 1) := by
  intro r
  induction r with
  | zero =>
    intro att le h
    have h0 := h 0 (by omega)
    rw [Nat.add_zero] at h0
    cases hg : gen att with
    | error e =>
      simp [extractLoop, attemptErr, hg]
    | ok text =>
      cases hl : loads text with
      | ok j => exfalso; simp [attemptResult, hg, hl] at h0
      | error e =>
        cases hx : extract_json_from_text loads text with
        | some j =>
          cases ht : j.truthy with
          | true => exfalso; simp [attemptResult, hg, hl, hx, ht] at h0
          | false => simp [extractLoop, attemptErr, hg, hl, hx, ht]
        | none => simp [extractLoop, attemptErr, hg, hl, hx]
  | succ r ih =>
    intro att le h
    have h0 := h 0 (by omega)
    rw [Nat.add_zero] at h0
    have hrec : ∀ i, i < r + 1 → attemptResult loads gen (att + 1 + i) = none := by
      intro i hi
      have := h (i + 1) (by omega)
      rwa [show att + (i + 1) = att + 1 + i by omega] at this
    have ihr := ih (att + 1) (some (attemptErr loads gen att)) hrec
    rw [show att + 1 + r = att + (r + 1) by omega] at ihr
    cases hg : gen att with
    | error e =>
      have he : attemptErr loads gen att = e := by simp [attemptErr, hg]
      rw [he] at ihr
      conv_lhs => rw [extractLoop]
      simp [hg, ihr, sleeps_range_succ]
    | ok text =>
      cases hl : loads text with
      | ok j => exfalso; simp [attemptResult, hg, hl] at h0
      | error e =>
        have he : attemptErr loads gen att = "JSON parse error: " ++ e := by
          simp [attemptErr, hg, hl]
        cases hx : extract_json_from_text loads text with
        | some j =>
          cases ht : j.truthy with
          | true => exfalso; simp [attemptResult, hg, hl, hx, ht] at h0
          | false =>
            rw [he] at ihr
            conv_lhs => rw [extractLoop]
            simp [hg, hl, hx, ht, ihr, sleeps_range_succ]
        | none =>
          rw [he] at ihr
          conv_lhs => rw [extractLoop]
          simp [hg, hl, hx, ihr, sleeps_range_succ]

/-- If the first `k` attempts fail and attempt `k` parses (directly or by
recovery), the loop returns that attempt's record, having made exactly
`k + 1` generation calls and slept after each of the `k` failures only. -/
lemma extractLoop_first_success (loads : String → Except String Json)
    (gen : Nat → Except String String) (j : Json) :
    ∀ (k r att : ℕ) (le : Option String), k < r →
      (∀ i, i < k → attemptResult loads gen (att + i) = none) →
      attemptResult loads gen (att + k) = some j →
      ∃ fe, extractLoop loads gen r att le =
        (some j, fe, (List.range k).map (fun i => 2 ^ (att + i) * 2), k + 1) := by
  intro k
  induction k with
  | zero =>
    intro r att le hr _ hk
    obtain ⟨r', rfl⟩ : ∃ r', r = r' + 1 := ⟨r - 1, by omega⟩
    rw [Nat.add_zero] at hk
    cases hg : gen att with
    | error e => exfalso; simp [attemptResult, hg] at hk
    | ok text =>
      cases hl : loads text with
      | ok jj =>
        have : jj = j := by simpa [attemptResult, hg, hl] using hk
        subst this
        exact ⟨le, by simp [extractLoop, hg, hl]⟩
      | error e =>
        cases hx : extract_json_from_text loads text with
        | some jj =>
          cases ht : jj.truthy with
          | true =>
            have hjj : jj = j := by simpa [attemptResult, hg, hl, hx, ht] using hk
            subst hjj
            exact ⟨some ("JSON parse error: " ++ e),
              by simp [extractLoop, hg, hl, hx, ht]⟩
          | false => exfalso; simp [attemptResult, hg, hl, hx, ht] at hk
        | none => exfalso; simp [attemptResult, hg, hl, hx] at hk
  | succ k ih =>
    intro r att le hr hlt hk
    obtain ⟨r', rfl⟩ : ∃ r', r = r' + 1 := ⟨r - 1, by omega⟩
    have h0 := hlt 0 (by omega)
    rw [Nat.add_zero] at h0
    have hrec : ∀ i, i < k → attemptResult loads gen (att + 1 + i) = none := by
      intro i hi
      have := hlt (i + 1) (by omega)
      rwa [show att + (i + 1) = att + 1 + i by omega] at this
    have hk' : attemptResult loads gen (att + 1 + k) = some j := by
      rwa [show att + (k + 1) = att + 1 + k by omega] at hk
    have hr' : k < r' := by omega
    have hpos : 0 < r' := by omega
    cases hg : gen att with
    | error e =>
      obtain ⟨fe, ihr⟩ := ih r' (att + 1) (some e) hr' hrec hk'
      refine ⟨fe, ?_⟩
      conv_lhs => rw [extractLoop]
      simp [hg, ihr, sleeps_range_succ, hpos]
    | ok text =>
      cases hl : loads text with
      | ok jj => exfalso; simp [attemptResult, hg, hl] at h0
      | error e =>
        obtain ⟨fe, ihr⟩ :=
          ih r' (att + 1) (some ("JSON parse error: " ++ e)) hr' hrec hk'
        cases hx : extract_json_from_text loads text with
        | some jj =>
          cases ht : jj.truthy with
          | true => exfalso; simp [attemptResult, hg, hl, hx, ht] at h0
          | false =>
            refine ⟨fe, ?_⟩
            conv_lhs => rw [extractLoop]
            simp [hg, hl, hx, ht, ihr, sleeps_range_succ, hpos]
        | none =>
          refine ⟨fe, ?_⟩
          conv_lhs => rw [extractLoop]
          simp [hg, hl, hx, ihr, sleeps_range_succ, hpos]

end ExtractorLemmas

/-- Claim C1: for every call to `extract_from_pdf` (maxAttempts ≥ 1) and
every behaviour of the external provider — upload, generation, deletion
each possibly raising — the call never lets an exception escape (the
embedding is a total function over all provider behaviours; deletion
errors are swallowed inside `delete_uploaded_file` and do not appear in
the outcome at all) and returns exactly one record: either a structure
parsed or recovered from some generation attempt (the Success variant)
or the literal failure dict (the Failure variant). -/
theorem extract_from_pdf_total_one_record
    (loads : String → Except String Json) (upload : Except String UploadedFile)
    (gen : Nat → Except String String) (pdfName : String) (src : Int)
    (retry_attempts : Nat) (hrt : 1 ≤ retry_attempts) :
    ∃ record trace,
      extract_from_pdf loads upload gen pdfName src retry_attempts = (record, trace) ∧
      ((∃ a, a < retry_attempts ∧ attemptResult loads gen a = some record) ∨
       ∃ e, record = failureDict src pdfName e) := by
  cases upload with
  | error e =>
    exact ⟨_, _, rfl, .inr ⟨"Failed to upload PDF: " ++ e, rfl⟩⟩
  | ok file =>
    by_cases hall : ∀ i, i < retry_attempts → attemptResult loads gen i = none
    · obtain ⟨r, rfl⟩ : ∃ r, retry_attempts = r + 1 := ⟨retry_attempts - 1, by omega⟩
      have hloop := extractLoop_all_fail loads gen r 0 none (by simpa using hall)
      have hrun : extract_from_pdf loads (.ok file) gen pdfName src (r + 1) =
          (failureDict src pdfName (attemptErr loads gen r),
           ⟨1, r + 1, 1, (List.range r).map (fun i => 2 ^ i * 2)⟩) := by
        simp [extract_from_pdf, hloop, delete_uploaded_file, pyStrOpt]
      exact ⟨_, _, hrun, .inr ⟨attemptErr loads gen r, rfl⟩⟩
    · have hex : ∃ i, (attemptResult loads gen i).isSome = true := by
        push_neg at hall
        obtain ⟨i, _, hi⟩ := hall
        exact ⟨i, Option.isSome_iff_ne_none.mpr hi⟩
      have hk : (attemptResult loads gen (Nat.find hex)).isSome = true := Nat.find_spec hex
      obtain ⟨j, hj⟩ := Option.isSome_iff_exists.mp hk
      have hklt : Nat.find hex < retry_attempts := by
        push_neg at hall
        obtain ⟨i, hilt, hi⟩ := hall
        exact lt_of_le_of_lt (Nat.find_min' hex (Option.isSome_iff_ne_none.mpr hi)) hilt
      have hbelow : ∀ i, i < Nat.find hex → attemptResult loads gen i = none := by
        intro i hi
        have := Nat.find_min hex hi
        simpa [Option.isSome_iff_ne_none] using this
      obtain ⟨fe, hloop⟩ := extractLoop_first_success loads gen j (Nat.find hex)
        retry_attempts 0 none hklt (by simpa using hbelow) (by simpa using hj)
      have hrun : extract_from_pdf loads (.ok file) gen pdfName src retry_attempts =
          (j, ⟨1, Nat.find hex + 1, 1,
            (List.range (Nat.find hex)).map (fun i => 2 ^ i * 2)⟩) := by
        simp [extract_from_pdf, hloop, delete_uploaded_file]
      exact ⟨_, _, hrun, .inl ⟨Nat.find hex, hklt, hj⟩⟩

/-- Witness for C1 at a concrete provider behaviour. -/
theorem extract_from_pdf_total_one_record_witness :
    ∃ record trace,
      extract_from_pdf loadsFix (.ok fileFix) genAllFail "01_a.pdf" 1 3 = (record, trace) ∧
      ((∃ a, a < 3 ∧ attemptResult loadsFix genAllFail a = some record) ∨
       ∃ e, record = failureDict 1 "01_a.pdf" e) :=
  extract_from_pdf_total_one_record loadsFix (.ok fileFix) genAllFail "01_a.pdf" 1 3
    (by omega)

/-- Claim C2: after every failed attempt that is not the last the client
sleeps `2^attempt * 2` (attempt zero-indexed), and never after the final
attempt: when the first `k` attempts fail and attempt `k` succeeds the
sleep trace is exactly `[2, 4, …, 2^(k-1)*2]`, the successful record is
returned; when every attempt fails the trace covers only the first
`maxAttempts - 1` attempts. -/
theorem extract_from_pdf_backoff
    (loads : String → Except String Json) (file : UploadedFile)
    (gen : Nat → Except String String) (pdfName : String) (src : Int)
    (retry_attempts k : Nat) (j : Json)
    (hk : k < retry_attempts)
    (hfail : ∀ i, i < k → attemptResult loads gen i = none)
    (hsucc : attemptResult loads gen k = some j) :
    extract_from_pdf loads (.ok file) gen pdfName src retry_attempts =
      (j, ⟨1, k + 1, 1, (List.range k).map (fun i => 2 ^ i * 2)⟩) ∧
    ∀ gen' : Nat → Except String String,
      (∀ i, i < retry_attempts → attemptResult loads gen' i = none) →
      (extract_from_pdf loads (.ok file) gen' pdfName src retry_attempts).2.sleeps =
        (List.range (retry_attempts - 1)).map (fun i => 2 ^ i * 2) := by
  constructor
  · obtain ⟨fe, hloop⟩ := extractLoop_first_success loads gen j k retry_attempts 0 none hk
      (by simpa using hfail) (by simpa using hsucc)
    simp [extract_from_pdf, hloop, delete_uploaded_file]
  · intro gen' hall
    obtain ⟨r, rfl⟩ : ∃ r, retry_attempts = r + 1 := ⟨retry_attempts - 1, by omega⟩
    have hloop := extractLoop_all_fail loads gen' r 0 none (by simpa using hall)
    simp [extract_from_pdf, hloop, delete_uploaded_file]

/-- Witness for C2: a mock provider failing the first 2 of 3 attempts
then succeeding yields the successful record with sleep trace `[2, 4]`,
a total delay of 6. -/
theorem extract_from_pdf_backoff_witness :
    (extract_from_pdf loadsFix (.ok fileFix) genFailTwice "01_a.pdf" 1 3 =
        (fixtureParsed, ⟨1, 3, 1, [2, 4]⟩) ∧
      ∀ gen' : Nat → Except String String,
        (∀ i, i < 3 → attemptResult loadsFix gen' i = none) →
        (extract_from_pdf loadsFix (.ok fileFix) gen' "01_a.pdf" 1 3).2.sleeps =
          (List.range (3 - 1)).map (fun i => 2 ^ i * 2)) ∧
    List.sum [2, 4] = 6 :=
  ⟨extract_from_pdf_backoff loadsFix fileFix genFailTwice "01_a.pdf" 1 3 2 fixtureParsed
      (by omega) (by intro i hi; interval_cases i <;> rfl) rfl,
    by decide⟩

/-- Claim C3: when upload succeeds and every generation/parse attempt
fails, the client makes exactly `maxAttempts` generation calls, returns
the Failure dict carrying the last failure's message (extractions empty),
and — on this and every other exit path with a successful upload — invokes
the handle deletion exactly once before returning. -/
theorem extract_from_pdf_exhaustion
    (loads : String → Except String Json) (file : UploadedFile)
    (gen : Nat → Except String String) (pdfName : String) (src : Int)
    (retry_attempts : Nat) (hrt : 1 ≤ retry_attempts)
    (hfail : ∀ i, i < retry_attempts → attemptResult loads gen i = none) :
    extract_from_pdf loads (.ok file) gen pdfName src retry_attempts =
      (failureDict src pdfName (attemptErr loads gen (retry_attempts - 1)),
       ⟨1, retry_attempts, 1,
        (List.range (retry_attempts - 1)).map (fun i => 2 ^ i * 2)⟩) ∧
    ∀ gen' : Nat → Except String String,
      (extract_from_pdf loads (.ok file) gen' pdfName src retry_attempts).2.deleteCalls = 1 := by
  constructor
  · obtain ⟨r, rfl⟩ : ∃ r, retry_attempts = r + 1 := ⟨retry_attempts - 1, by omega⟩
    have hloop := extractLoop_all_fail loads gen r 0 none (by simpa using hfail)
    simp [extract_from_pdf, hloop, delete_uploaded_file, pyStrOpt]
  · intro gen'
    rcases hloop : extractLoop loads gen' retry_attempts 0 none with ⟨res, fe, ss, gc⟩
    cases res <;> simp [extract_from_pdf, hloop, delete_uploaded_file]

/-- Witness for C3 at a concrete always-failing provider. -/
theorem extract_from_pdf_exhaustion_witness :
    extract_from_pdf loadsFix (.ok fileFix) genAllFail "01_a.pdf" 1 3 =
      (failureDict 1 "01_a.pdf" "503 UNAVAILABLE", ⟨1, 3, 1, [2, 4]⟩) ∧
    ∀ gen' : Nat → Except String String,
      (extract_from_pdf loadsFix (.ok fileFix) gen' "01_a.pdf" 1 3).2.deleteCalls = 1 :=
  extract_from_pdf_exhaustion loadsFix fileFix genAllFail "01_a.pdf" 1 3
    (by omega) (fun _ _ => rfl)

/-- Claim C4: when the upload step fails the client immediately returns
the Failure dict with error `"Failed to upload PDF: …"` and empty
extractions, with zero generation attempts, zero deletions and a single
(non-retried) upload call. -/
theorem extract_from_pdf_upload_failure
    (loads : String → Except String Json) (gen : Nat → Except String String)
    (pdfName : String) (src : Int) (retry_attempts : Nat) (e : String) :
    extract_from_pdf loads (.error e) gen pdfName src retry_attempts =
      (failureDict src pdfName ("Failed to upload PDF: " ++ e), ⟨1, 0, 0, []⟩) := rfl

/-- Claim C5 counterexample: on a fenced empty object the recovery parse
succeeds (`_extract_json_from_text` returns the parsed `\x7b\x7d`), yet the
attempt is not treated as a success: the recovered value is falsy, so the
client retries, sleeps `[2, 4]`, makes all 3 generation calls and returns
the Failure dict — refuting "if either succeeds the attempt is treated as
a success of that same attempt" as stated. -/
theorem recovery_falsy_not_returned :
    extract_json_from_text loadsEmptyObj emptyFencedText = some (Json.obj []) ∧
    extract_from_pdf loadsEmptyObj (.ok fileFix) genEmptyFenced "01_a.pdf" 1 3 =
      (failureDict 1 "01_a.pdf"
        "JSON parse error: Expecting value: line 1 column 1 (char 0)",
       ⟨1, 3, 1, [2, 4]⟩) :=
  ⟨rfl, rfl⟩

/-- Claim C5 (amended): within one attempt, if direct parsing fails,
recovery first parses the fenced-block capture, then the first brace
span; a recovered parse whose value is truthy (the `if extracted:` gate,
src/extract.py line 98) is a success of that same attempt — the call
returns the recovered structure having made only `k + 1` generation
calls when the recovery happens on attempt `k`.  A recovered falsy
structure is discarded and the attempt counts as failed
(see the counterexample). -/
theorem extract_json_recovery_ladder (loads : String → Except String Json) :
    (∀ text inner j, fencedContent text = some inner → loads inner = .ok j →
      extract_json_from_text loads text = some j) ∧
    (∀ text s j,
      (∀ inner, fencedContent text = some inner → ∃ e, loads inner = .error e) →
      braceSpan text = some s → loads s = .ok j →
      extract_json_from_text loads text = some j) ∧
    (∀ (file : UploadedFile) (gen : Nat → Except String String)
       (pdfName : String) (src : Int) (retry_attempts k : Nat) (text : String) (j : Json),
      k < retry_attempts →
      (∀ i, i < k → attemptResult loads gen i = none) →
      gen k = .ok text → (∃ e, loads text = .error e) →
      extract_json_from_text loads text = some j → j.truthy = true →
      extract_from_pdf loads (.ok file) gen pdfName src retry_attempts =
        (j, ⟨1, k + 1, 1, (List.range k).map (fun i => 2 ^ i * 2)⟩)) := by
  refine ⟨?_, ?_, ?_⟩
  · intro text inner j hf hl
    simp [extract_json_from_text, hf, hl]
  · intro text s j hf hb hl
    cases hfc : fencedContent text with
    | none => simp [extract_json_from_text, hfc, hb, hl, Except.toOption]
    | some inner =>
      obtain ⟨e, he⟩ := hf inner hfc
      simp [extract_json_from_text, hfc, he, hb, hl, Except.toOption]
  · intro file gen pdfName src retry_attempts k text j hk hfail hgen ⟨e, hl⟩ hx ht
    have hres : attemptResult loads gen k = some j := by
      simp [attemptResult, hgen, hl, hx, ht]
    obtain ⟨fe, hloop⟩ := extractLoop_first_success loads gen j k retry_attempts 0 none hk
      (by simpa using hfail) (by simpa using hres)
    simp [extract_from_pdf, hloop, delete_uploaded_file]

/-- Witness for C5 on the spec's fenced-response example: the fenced JSON
is recovered and returned as a success of the very first attempt. -/
theorem extract_json_recovery_ladder_witness :
    extract_json_from_text loadsFix exampleFencedText = some fixtureParsed ∧
    extract_from_pdf loadsFix (.ok fileFix) genFenced "01_a.pdf" 1 3 =
      (fixtureParsed, ⟨1, 1, 1, []⟩) :=
  ⟨(extract_json_recovery_ladder loadsFix).1 exampleFencedText fixturePayload fixtureParsed
      rfl rfl,
    (extract_json_recovery_ladder loadsFix).2.2 fileFix genFenced "01_a.pdf" 1 3 0
      exampleFencedText fixtureParsed (by omega) (fun i hi => absurd hi (by omega)) rfl
      ⟨"Expecting value: line 1 column 1 (char 0)", rfl⟩ rfl rfl⟩

section BatchLemmas

/-- Reduction of an `Except` bind on a success. -/
@[simp] lemma exceptOk_bind {ε α β : Type} (a : α) (f : α → Except ε β) :
    (Except.ok a : Except ε α) >>= f = f a := rfl

/-- Reduction of an `Except` bind on an error. -/
@[simp] lemma exceptError_bind {ε α β : Type} (e : ε) (f : α → Except ε β) :
    (Except.error e : Except ε α) >>= f = Except.error e := rfl

/-- First-match lookup distributes over store append. -/
lemma PyDict.get_append (d e : PyDict) (k : String) :
    PyDict.get (d ++ e) k = (PyDict.get d k).or (PyDict.get e k) := by
  cases h : List.find? (fun kv => kv.1 == k) d <;>
    simp [PyDict.get, List.find?_append, h]

/-- Unpacking a successful output-key computation. -/
lemma sourceJsonKey_ok {pdf_folder output_folder : String} {n : Int} {s : PyDict}
    {k : String} (h : sourceJsonKey pdf_folder output_folder n s = .ok k) :
    ∃ fn, sourceFilename n s = .ok fn ∧
      pathJoin output_folder (pathStem (pathJoin pdf_folder fn) ++ ".json") = k := by
  cases hfn : sourceFilename n s with
  | error e => simp [sourceJsonKey, hfn] at h
  | ok fn =>
    refine ⟨fn, rfl, ?_⟩
    simpa [sourceJsonKey, hfn] using h

/-- The batch loop only ever appends to the store. -/
lemma batchLoop_store_prefix (extract : Int → String → Json)
    (pf of : String) :
    ∀ (l : List (Int × PyDict)) (store : Store) (res : List Json) (st : Store)
      (calls : List Int),
      batchLoop extract pf of l store = .ok (res, st, calls) →
      ∃ d, st = store ++ d := by
  intro l
  induction l with
  | nil =>
    intro store res st calls h
    simp [batchLoop] at h
    exact ⟨[], by simp [h.2.1.symm]⟩
  | cons p rest ih =>
    intro store res st calls h
    obtain ⟨n, s⟩ := p
    cases hfn : sourceFilename n s with
    | error e => simp [batchLoop, hfn] at h
    | ok fn =>
      rw [batchLoop] at h
      simp only [hfn] at h
      set jp := pathJoin of (pathStem (pathJoin pf fn) ++ ".json") with hjp
      cases hget : PyDict.get store jp with
      | some v =>
        simp only [hget, exceptOk_bind] at h
        rcases hrec : batchLoop extract pf of rest store with _ | ⟨rs, st', calls'⟩
        · rw [hrec] at h; simp at h
        · rw [hrec] at h
          simp at h
          obtain ⟨d, hd⟩ := ih store rs st' calls' hrec
          exact ⟨d, by rw [← h.2.1, hd]⟩
      | none =>
        simp only [hget, exceptOk_bind] at h
        rcases hrec : batchLoop extract pf of rest
            (store ++ [(jp, extract n (pathJoin pf fn))]) with _ | ⟨rs, st', calls'⟩
        · rw [hrec] at h; simp at h
        · rw [hrec] at h
          simp at h
          obtain ⟨d, hd⟩ := ih _ rs st' calls' hrec
          exact ⟨[(jp, extract n (pathJoin pf fn))] ++ d, by
            rw [← h.2.1, hd, List.append_assoc]⟩

/-- A batch whose sources all resolve a filename runs to completion. -/
lemma batchLoop_ok (extract : Int → String → Json) (pf of : String) :
    ∀ (l : List (Int × PyDict)) (store : Store),
      (∀ p ∈ l, ∃ fn, sourceFilename p.1 p.2 = .ok fn) →
      ∃ res st calls, batchLoop extract pf of l store = .ok (res, st, calls) := by
  intro l
  induction l with
  | nil => intro store _; exact ⟨[], store, [], rfl⟩
  | cons p rest ih =>
    intro store hfn
    obtain ⟨n, s⟩ := p
    obtain ⟨fn, hf⟩ := hfn (n, s) (by simp)
    have hrest : ∀ p ∈ rest, ∃ fn, sourceFilename p.1 p.2 = .ok fn :=
      fun q hq => hfn q (by simp [hq])
    set jp := pathJoin of (pathStem (pathJoin pf fn) ++ ".json") with hjp
    cases hget : PyDict.get store jp with
    | some v =>
      obtain ⟨rs, st, calls, hrec⟩ := ih store hrest
      exact ⟨v :: rs, st, calls, by rw [batchLoop]; simp [hf, ← hjp, hget, hrec]⟩
    | none =>
      obtain ⟨rs, st, calls, hrec⟩ := ih (store ++ [(jp, extract n (pathJoin pf fn))]) hrest
      exact ⟨extract n (pathJoin pf fn) :: rs, st, n :: calls, by
        rw [batchLoop]; simp [hf, ← hjp, hget, hrec]⟩

/-- Re-running the batch loop against the store it produced changes
nothing: every source is skipped, the store is untouched, and the same
records come back. -/
lemma batchLoop_rerun (extract : Int → String → Json) (pf of : String) :
    ∀ (l : List (Int × PyDict)) (store : Store) (res : List Json) (st : Store)
      (calls : List Int),
      batchLoop extract pf of l store = .ok (res, st, calls) →
      batchLoop extract pf of l st = .ok (res, st, []) := by
  intro l
  induction l with
  | nil =>
    intro store res st calls h
    simp only [batchLoop, Except.ok.injEq, Prod.mk.injEq] at h
    obtain ⟨h1, h2, h3⟩ := h
    subst h1; subst h2; subst h3
    rfl
  | cons p rest ih =>
    intro store res st calls h
    obtain ⟨n, s⟩ := p
    cases hfn : sourceFilename n s with
    | error e => simp [batchLoop, hfn] at h
    | ok fn =>
      rw [batchLoop] at h
      simp only [hfn, exceptOk_bind] at h
      set jp := pathJoin of (pathStem (pathJoin pf fn) ++ ".json") with hjp
      cases hget : PyDict.get store jp with
      | some v =>
        simp only [hget] at h
        rcases hrec : batchLoop extract pf of rest store with _ | ⟨rs, st', calls'⟩
        · rw [hrec] at h; simp at h
        · rw [hrec] at h
          simp only [exceptOk_bind, Except.ok.injEq, Prod.mk.injEq] at h
          obtain ⟨hres, hst, hcalls⟩ := h
          subst hres; subst hst
          obtain ⟨d, hd⟩ := batchLoop_store_prefix extract pf of rest store rs st' calls' hrec
          have hget2 : PyDict.get st' jp = some v := by
            rw [hd, PyDict.get_append, hget]; rfl
          have hrerun := ih store rs st' calls' hrec
          rw [batchLoop]
          simp [hfn, ← hjp, hget2, hrerun]
      | none =>
        simp only [hget] at h
        rcases hrec : batchLoop extract pf of rest
            (store ++ [(jp, extract n (pathJoin pf fn))]) with _ | ⟨rs, st', calls'⟩
        · rw [hrec] at h; simp at h
        · rw [hrec] at h
          simp only [exceptOk_bind, Except.ok.injEq, Prod.mk.injEq] at h
          obtain ⟨hres, hst, hcalls⟩ := h
          subst hres; subst hst
          obtain ⟨d, hd⟩ := batchLoop_store_prefix extract pf of rest _ rs st' calls' hrec
          have hget2 : PyDict.get st' jp = some (extract n (pathJoin pf fn)) := by
            rw [hd, PyDict.get_append, PyDict.get_append, hget]
            simp [PyDict.get]
          have hrerun := ih _ rs st' calls' hrec
          rw [batchLoop]
          simp [hfn, ← hjp, hget2, hrerun]

end BatchLemmas

section BatchLemmasMore

/-- A run over sources none of whose keys are stored yet extracts every
one of them, in list order. -/
lemma batchLoop_fresh (extract : Int → String → Json) (pf of : String)
    (keyf : Int × PyDict → String) :
    ∀ (l : List (Int × PyDict)) (store : Store),
      (∀ p ∈ l, sourceJsonKey pf of p.1 p.2 = .ok (keyf p)) →
      (∀ p ∈ l, PyDict.get store (keyf p) = none) →
      (l.map keyf).Nodup →
      ∃ res st, batchLoop extract pf of l store = .ok (res, st, l.map (fun p => p.1)) := by
  intro l
  induction l with
  | nil => intro store _ _ _; exact ⟨[], store, rfl⟩
  | cons p rest ih =>
    intro store hkey hnone hnd
    obtain ⟨n, s⟩ := p
    obtain ⟨fn, hfn, hpath⟩ := sourceJsonKey_ok (hkey (n, s) (by simp))
    have hget : PyDict.get store (pathJoin of (pathStem (pathJoin pf fn) ++ ".json")) = none := by
      rw [hpath]; exact hnone (n, s) (by simp)
    rw [List.map_cons, List.nodup_cons] at hnd
    have hndr : (rest.map keyf).Nodup := hnd.2
    have hfresh : ∀ q ∈ rest,
        PyDict.get (store ++ [(pathJoin of (pathStem (pathJoin pf fn) ++ ".json"),
          extract n (pathJoin pf fn))]) (keyf q) = none := by
      intro q hq
      rw [PyDict.get_append, hnone q (by simp [hq]), hpath]
      have hne : keyf (n, s) ≠ keyf q := by
        intro he
        exact hnd.1 (he ▸ List.mem_map_of_mem keyf hq)
      have hbe : (keyf (n, s) == keyf q) = false := beq_eq_false_iff_ne.mpr hne
      simp [PyDict.get, List.find?_cons, hbe]
    obtain ⟨rs, st, hrec⟩ := ih _ (fun q hq => hkey q (by simp [hq])) hfresh hndr
    refine ⟨extract n (pathJoin pf fn) :: rs, st, ?_⟩
    rw [batchLoop]
    simp [hfn, hget, hrec]

/-- Sources whose keys are already stored are skipped: they contribute
their stored records, no store change, no extractor calls. -/
lemma batchLoop_skips (extract : Int → String → Json) (pf of : String)
    (keyf : Int × PyDict → String) :
    ∀ (l1 l2 : List (Int × PyDict)) (store : Store),
      (∀ p ∈ l1, sourceJsonKey pf of p.1 p.2 = .ok (keyf p)) →
      (∀ p ∈ l1, (PyDict.get store (keyf p)).isSome = true) →
      ∀ res2 st2 calls2, batchLoop extract pf of l2 store = .ok (res2, st2, calls2) →
      ∃ res1, batchLoop extract pf of (l1 ++ l2) store = .ok (res1 ++ res2, st2, calls2) := by
  intro l1
  induction l1 with
  | nil => intro l2 store _ _ res2 st2 calls2 h; exact ⟨[], by simpa using h⟩
  | cons p rest ih =>
    intro l2 store hkey hsome res2 st2 calls2 h
    obtain ⟨n, s⟩ := p
    obtain ⟨fn, hfn, hpath⟩ := sourceJsonKey_ok (hkey (n, s) (by simp))
    obtain ⟨v, hv⟩ := Option.isSome_iff_exists.mp (hsome (n, s) (by simp))
    have hget : PyDict.get store (pathJoin of (pathStem (pathJoin pf fn) ++ ".json")) = some v := by
      rw [hpath]; exact hv
    obtain ⟨res1, hrec⟩ := ih l2 store (fun q hq => hkey q (by simp [hq]))
      (fun q hq => hsome q (by simp [hq])) res2 st2 calls2 h
    refine ⟨v :: res1, ?_⟩
    rw [List.cons_append, batchLoop]
    simp [hfn, hget, hrec]

/-- Element-by-element characterisation of a batch run over sources with
pairwise-distinct output keys: each selected source, in order, yields the
stored record at its key if one exists and a fresh extraction otherwise,
and exactly the sources without a stored record get extracted. -/
lemma batchLoop_elementwise (extract : Int → String → Json) (pf of : String)
    (fnf : Int × PyDict → String) (store0 : Store) :
    ∀ (l : List (Int × PyDict)) (store : Store),
      (∀ p ∈ l, sourceFilename p.1 p.2 = .ok (fnf p)) →
      ((l.map (batchKey pf of fnf)).Nodup) →
      (∀ p ∈ l, PyDict.get store (batchKey pf of fnf p) =
        PyDict.get store0 (batchKey pf of fnf p)) →
      ∃ st, batchLoop extract pf of l store = .ok
        (l.map (fun p => PyDict.getD store0 (batchKey pf of fnf p)
            (extract p.1 (pathJoin pf (fnf p)))),
         st,
         (l.filter (fun p =>
           (PyDict.get store0 (batchKey pf of fnf p)).isNone)).map (fun p => p.1)) := by
  intro l
  induction l with
  | nil => intro store _ _ _; exact ⟨store, rfl⟩
  | cons p rest ih =>
    intro store hfn hnd hag
    obtain ⟨n, s⟩ := p
    have hfn0 := hfn (n, s) (by simp)
    have hk0 : pathJoin of (pathStem (pathJoin pf (fnf (n, s))) ++ ".json") =
        batchKey pf of fnf (n, s) := rfl
    have hag0 := hag (n, s) (by simp)
    rw [List.map_cons, List.nodup_cons] at hnd
    have hndr : (rest.map (batchKey pf of fnf)).Nodup := hnd.2
    cases hg0 : PyDict.get store0 (batchKey pf of fnf (n, s)) with
    | some v =>
      have hget : PyDict.get store (batchKey pf of fnf (n, s)) = some v := by
        rw [hag0, hg0]
      obtain ⟨st, hrec⟩ := ih store (fun q hq => hfn q (by simp [hq])) hndr
        (fun q hq => hag q (by simp [hq]))
      refine ⟨st, ?_⟩
      rw [batchLoop]
      simp only [hfn0, exceptOk_bind, hk0, hget, hrec, List.map_cons, List.filter_cons]
      simp [PyDict.getD, hg0]
    | none =>
      have hget : PyDict.get store (batchKey pf of fnf (n, s)) = none := by
        rw [hag0, hg0]
      have hag' : ∀ q ∈ rest,
          PyDict.get (store ++ [(batchKey pf of fnf (n, s),
              extract n (pathJoin pf (fnf (n, s))))]) (batchKey pf of fnf q) =
            PyDict.get store0 (batchKey pf of fnf q) := by
        intro q hq
        rw [PyDict.get_append]
        have hne : batchKey pf of fnf (n, s) ≠ batchKey pf of fnf q := by
          intro he
          exact hnd.1 (he ▸ List.mem_map_of_mem (batchKey pf of fnf) hq)
        have hbe : (batchKey pf of fnf (n, s) == batchKey pf of fnf q) = false :=
          beq_eq_false_iff_ne.mpr hne
        rw [hag q (by simp [hq])]
        cases hgq : PyDict.get store0 (batchKey pf of fnf q) with
        | some w => rfl
        | none => simp [PyDict.get, List.find?_cons, hbe]
      obtain ⟨st, hrec⟩ := ih _ (fun q hq => hfn q (by simp [hq])) hndr hag'
      refine ⟨st, ?_⟩
      rw [batchLoop]
      simp only [hfn0, exceptOk_bind, hk0, hget, hrec, List.map_cons, List.filter_cons]
      simp [PyDict.getD, hg0]

end BatchLemmasMore

/-- Claim C6: a second `run_extraction_batch` over the same range against
the store the first run produced is idempotent — every selected source's
record already exists at its derived key, is loaded and reused, the
persisted store is unchanged, the same record sequence comes back and the
extractor is never invoked; and a run against a store holding the records
of a prefix of the selection reprocesses exactly the remaining sources. -/
theorem batch_rerun_idempotent_resumable
    (extract : Int → String → Json) (pdf_folder output_folder : String)
    (sources : List (Int × PyDict)) (store0 : Store) (start_from : Int)
    (end_at : Option Int) (keyf : Int × PyDict → String)
    (hkey : ∀ p ∈ sources, sourceJsonKey pdf_folder output_folder p.1 p.2 = .ok (keyf p)) :
    (∃ results1 store1 calls1,
      run_extraction_batch extract pdf_folder sources output_folder store0 start_from end_at
        = .ok (results1, store1, calls1) ∧
      run_extraction_batch extract pdf_folder sources output_folder store1 start_from end_at
        = .ok (results1, store1, [])) ∧
    (∀ S1 S2, selectedSources sources start_from end_at = S1 ++ S2 →
      (∀ p ∈ S1, (PyDict.get store0 (keyf p)).isSome = true) →
      (∀ p ∈ S2, PyDict.get store0 (keyf p) = none) →
      (S2.map keyf).Nodup →
      ∃ results store1,
        run_extraction_batch extract pdf_folder sources output_folder store0 start_from end_at
          = .ok (results, store1, S2.map (fun p => p.1))) := by
  have hsel : ∀ p ∈ selectedSources sources start_from end_at,
      sourceJsonKey pdf_folder output_folder p.1 p.2 = .ok (keyf p) := by
    intro p hp
    have hp2 : p ∈ sources ∧ start_from ≤ p.1 ∧ p.1 ≤ resolveEnd sources end_at := by
      simpa [selectedSources] using hp
    exact hkey p hp2.1
  constructor
  · have hfn : ∀ p ∈ selectedSources sources start_from end_at,
        ∃ fn, sourceFilename p.1 p.2 = .ok fn := by
      intro p hp
      obtain ⟨fn, h1, _⟩ := sourceJsonKey_ok (hsel p hp)
      exact ⟨fn, h1⟩
    obtain ⟨res, st, calls, h1⟩ :=
      batchLoop_ok extract pdf_folder output_folder
        (selectedSources sources start_from end_at) store0 hfn
    exact ⟨res, st, calls, h1,
      batchLoop_rerun extract pdf_folder output_folder _ store0 res st calls h1⟩
  · intro S1 S2 hsplit h1some h2none hnd
    have hmem1 : ∀ p ∈ S1, p ∈ selectedSources sources start_from end_at := by
      intro p hp; rw [hsplit]; exact List.mem_append_left _ hp
    have hmem2 : ∀ p ∈ S2, p ∈ selectedSources sources start_from end_at := by
      intro p hp; rw [hsplit]; exact List.mem_append_right _ hp
    obtain ⟨res2, st2, hfresh⟩ :=
      batchLoop_fresh extract pdf_folder output_folder keyf S2 store0
        (fun p hp => hsel p (hmem2 p hp)) h2none hnd
    obtain ⟨res1, hskip⟩ :=
      batchLoop_skips extract pdf_folder output_folder keyf S1 S2 store0
        (fun p hp => hsel p (hmem1 p hp)) h1some _ _ _ hfresh
    refine ⟨res1 ++ res2, st2, ?_⟩
    show batchLoop extract pdf_folder output_folder
      (selectedSources sources start_from end_at) store0 = _
    rw [hsplit]
    exact hskip

/-- Witness for C6 on a concrete two-source batch. -/
theorem batch_rerun_idempotent_resumable_witness :
    (∃ results1 store1 calls1,
      run_extraction_batch extractFix "pdfs" sourcesFix "out" [] 1 none
        = .ok (results1, store1, calls1) ∧
      run_extraction_batch extractFix "pdfs" sourcesFix "out" store1 1 none
        = .ok (results1, store1, [])) ∧
    (∀ S1 S2, selectedSources sourcesFix 1 none = S1 ++ S2 →
      (∀ p ∈ S1, (PyDict.get [] (keyfFix p)).isSome = true) →
      (∀ p ∈ S2, PyDict.get [] (keyfFix p) = none) →
      (S2.map keyfFix).Nodup →
      ∃ results store1,
        run_extraction_batch extractFix "pdfs" sourcesFix "out" [] 1 none
          = .ok (results, store1, S2.map (fun p => p.1))) :=
  batch_rerun_idempotent_resumable extractFix "pdfs" "out" sourcesFix [] 1 none keyfFix
    (by
      intro p hp
      simp only [sourcesFix, List.mem_cons, List.not_mem_nil, or_false] at hp
      rcases hp with rfl | rfl <;> rfl)

/-- Claim C7 counterexample: a sources mapping whose iteration order is
descending (source 2 inserted before source 1) is processed in that
mapping order — the extractor is called for source 2 first and the
returned sequence is `[record 2, record 1]` — not in ascending
source-number order as the claim states for every mapping. -/
theorem batch_order_counterexample :
    run_extraction_batch extractNum "pdfs" sourcesDesc "out" [] 1 none
      = .ok ([Json.num 2, Json.num 1],
             [("out/02_b.json", Json.num 2), ("out/01_a.json", Json.num 1)],
             [2, 1]) ∧
    ¬ List.Sorted (· ≤ ·) [(2 : Int), 1] :=
  ⟨rfl, by decide⟩

/-- Claim C7 (amended): `run_extraction_batch` processes exactly the
sources whose number lies in `[start_from, end_at]` inclusive (`end_at`
defaulting to the maximum source number present), in the order in which
the sources mapping itself iterates them — ascending only when the
mapping's insertion order is ascending, as the pipeline's construction
guarantees — and the returned record sequence and extractor-call sequence
follow that same selection order. -/
theorem batch_processes_in_mapping_order
    (extract : Int → String → Json) (pdf_folder output_folder : String)
    (sources : List (Int × PyDict)) (store0 : Store) (start_from : Int)
    (end_at : Option Int) (fnf : Int × PyDict → String)
    (hfn : ∀ p ∈ sources, sourceFilename p.1 p.2 = .ok (fnf p))
    (hnd : ((selectedSources sources start_from end_at).map
        (batchKey pdf_folder output_folder fnf)).Nodup) :
    ∃ store1,
      run_extraction_batch extract pdf_folder sources output_folder store0 start_from end_at
        = .ok
          ((selectedSources sources start_from end_at).map (fun p =>
            PyDict.getD store0 (batchKey pdf_folder output_folder fnf p)
              (extract p.1 (pathJoin pdf_folder (fnf p)))),
           store1,
           ((selectedSources sources start_from end_at).filter (fun p =>
             (PyDict.get store0 (batchKey pdf_folder output_folder fnf p)).isNone)).map
             (fun p => p.1)) := by
  have hfns : ∀ p ∈ selectedSources sources start_from end_at,
      sourceFilename p.1 p.2 = .ok (fnf p) := by
    intro p hp
    have hp2 : p ∈ sources ∧ start_from ≤ p.1 ∧ p.1 ≤ resolveEnd sources end_at := by
      simpa [selectedSources] using hp
    exact hfn p hp2.1
  obtain ⟨st, h⟩ := batchLoop_elementwise extract pdf_folder output_folder fnf store0
    (selectedSources sources start_from end_at) store0 hfns hnd (fun _ _ => rfl)
  exact ⟨st, h⟩

/-- Witness for the amended C7 on the descending-order fixture: the
selection is the whole mapping, processed in mapping order 2, 1. -/
theorem batch_processes_in_mapping_order_witness :
    ∃ store1,
      run_extraction_batch extractNum "pdfs" sourcesDesc "out" [] 1 none
        = .ok
          ((selectedSources sourcesDesc 1 none).map (fun p =>
            PyDict.getD [] (batchKey "pdfs" "out" fnfDesc p)
              (extractNum p.1 (pathJoin "pdfs" (fnfDesc p)))),
           store1,
           ((selectedSources sourcesDesc 1 none).filter (fun p =>
             (PyDict.get [] (batchKey "pdfs" "out" fnfDesc p)).isNone)).map
             (fun p => p.1)) :=
  batch_processes_in_mapping_order extractNum "pdfs" "out" sourcesDesc [] 1 none fnfDesc
    (by
      intro p hp
      simp only [sourcesDesc, List.mem_cons, List.not_mem_nil, or_false] at hp
      rcases hp with rfl | rfl <;> rfl)
    (by decide)


section AggregationLemmas

/-- Key membership in terms of the ordered key list. -/
lemma PyDict.hasKey_iff_mem_keys (d : PyDict) (k : String) :
    PyDict.hasKey d k = true ↔ k ∈ PyDict.keys d := by
  rw [PyDict.hasKey, List.any_eq_true]
  constructor
  · rintro ⟨kv, hm, he⟩
    exact List.mem_map.mpr ⟨kv, hm, by simpa using he⟩
  · intro hm
    obtain ⟨kv, hm2, he⟩ := List.mem_map.mp hm
    exact ⟨kv, hm2, by simp [he]⟩

/-- An absent key looks up to `none`. -/
lemma PyDict.get_eq_none_of_not_hasKey {d : PyDict} {k : String}
    (h : PyDict.hasKey d k = false) : PyDict.get d k = none := by
  rw [PyDict.get]
  have hf : List.find? (fun kv => kv.1 == k) d = none := by
    rw [List.find?_eq_none]
    intro kv hm
    rw [PyDict.hasKey, List.any_eq_false] at h
    simpa using h kv hm
  rw [hf]; rfl

/-- Lookup skips a prefix holding no matching key. -/
lemma PyDict.get_append_right {d : PyDict} {k : String} (e : PyDict)
    (h : PyDict.hasKey d k = false) :
    PyDict.get (d ++ e) k = PyDict.get e k := by
  rw [PyDict.get_append, PyDict.get_eq_none_of_not_hasKey h, Option.none_or]

/-- Lookup stops in a prefix where it finds the key. -/
lemma PyDict.get_append_left {d : PyDict} {k : String} (e : PyDict) {v : Json}
    (h : PyDict.get d k = some v) :
    PyDict.get (d ++ e) k = some v := by
  rw [PyDict.get_append, h]; rfl

/-- Assigning a fresh key appends it. -/
lemma PyDict.set_fresh (v : Json) :
    ∀ (d : PyDict) (k : String), PyDict.hasKey d k = false →
      PyDict.set d k v = d ++ [(k, v)] := by
  intro d
  induction d with
  | nil => intro k _; rfl
  | cons kv rest ih =>
    intro k h
    rw [PyDict.hasKey, List.any_cons] at h
    have h1 : (kv.1 == k) = false := by
      cases hb : (kv.1 == k) <;> simp [hb] at h ⊢
    have h2 : PyDict.hasKey rest k = false := by
      rw [PyDict.hasKey]
      cases hb : rest.any (fun kv => kv.1 == k) <;> simp [hb, h1] at h ⊢
    simp [PyDict.set, h1, ih k h2]

/-- Appending distinct strings to a common prefix keeps them distinct. -/
lemma strAppend_ne (a : String) {x y : String} (h : x ≠ y) : a ++ x ≠ a ++ y := by
  intro he
  apply h
  have hd : (a ++ x).data = (a ++ y).data := by rw [he]
  rw [String.data_append, String.data_append] at hd
  exact String.ext (List.append_cancel_left hd)

/-- Unpacking a well-formed non-error record's extractions dict. -/
lemma wf_extractions {ext : PyDict} (hwf : wfRecord ext = true)
    (herr : PyDict.hasKey ext "error" = false) :
    ∃ entries, PyDict.getD ext "extractions" (Json.obj []) = Json.obj entries ∧
      ∀ kv ∈ entries, wfEntryVal kv.2 = true := by
  rw [wfRecord, Bool.and_eq_true, Bool.or_eq_true] at hwf
  rcases hwf.2 with h | h
  · rw [herr] at h; simp at h
  · rw [Bool.and_eq_true] at h
    have h2 := h.2
    cases hx : PyDict.getD ext "extractions" (Json.obj []) with
    | obj entries =>
      rw [hx] at h2
      exact ⟨entries, rfl, by simpa [List.all_eq_true] using h2⟩
    | null => rw [hx] at h2; simp at h2
    | bool b => rw [hx] at h2; simp at h2
    | num n => rw [hx] at h2; simp at h2
    | str s => rw [hx] at h2; simp at h2
    | arr l => rw [hx] at h2; simp at h2

/-- The sample value of a well-formed non-error record normalises (via
`or \x7b\x7d`) to a dict. -/
lemma wf_sample {ext : PyDict} (hwf : wfRecord ext = true)
    (herr : PyDict.hasKey ext "error" = false) :
    ∃ d, (if (PyDict.getD ext "sample" (Json.obj [])).truthy then
        PyDict.getD ext "sample" (Json.obj []) else Json.obj []) = Json.obj d := by
  rw [wfRecord, Bool.and_eq_true, Bool.or_eq_true] at hwf
  rcases hwf.2 with h | h
  · rw [herr] at h; simp at h
  · rw [Bool.and_eq_true] at h
    have h1 := h.1
    rw [PyDict.getD]
    cases hg : PyDict.get ext "sample" with
    | none => exact ⟨[], by simp [Json.truthy]⟩
    | some v =>
      rw [hg] at h1
      cases v with
      | null => exact ⟨[], by simp [Json.truthy]⟩
      | obj d =>
        by_cases hd : d.isEmpty
        · exact ⟨[], by
            simp only [Option.getD_some, Json.truthy]
            rw [List.isEmpty_iff] at hd
            simp [hd]⟩
        · exact ⟨d, by
            simp only [Option.getD_some, Json.truthy]
            simp [hd]⟩
      | bool b => simp at h1
      | num n => simp at h1
      | str s => simp at h1
      | arr l => simp at h1

/-- The per-question entry of a well-formed non-error record, as computed
by the chained `.get` calls, is `specEntry`, and it is well formed. -/
lemma specEntry_spec {ext : PyDict} (hwf : wfRecord ext = true)
    (herr : PyDict.hasKey ext "error" = false) (rq_id : String) :
    (PyDict.getD ext "extractions" (Json.obj [])).pyGetD rq_id (Json.obj []) =
      .ok (Json.obj (specEntry ext rq_id)) ∧
    wfEntryVal (Json.obj (specEntry ext rq_id)) = true := by
  obtain ⟨entries, hx, hall⟩ := wf_extractions hwf herr
  cases hg : PyDict.get entries rq_id with
  | none =>
    have hse : specEntry ext rq_id = [] := by
      unfold specEntry
      rw [hx]
      simp [PyDict.getD, hg]
    rw [hx, hse]
    constructor
    · simp [Json.pyGetD, PyDict.getD, hg]
    · simp [wfEntryVal, PyDict.get]
  | some v =>
    have hv : wfEntryVal v = true := by
      rw [PyDict.get] at hg
      cases hf : List.find? (fun kv => kv.1 == rq_id) entries with
      | none => rw [hf] at hg; cases hg
      | some kv =>
        rw [hf] at hg
        have hm := hall kv (List.mem_of_find?_eq_some hf)
        have hkv : kv.2 = v := by simpa using hg
        rwa [hkv] at hm
    cases v with
    | obj entry =>
      have hse : specEntry ext rq_id = entry := by
        unfold specEntry
        rw [hx]
        simp [PyDict.getD, hg]
      rw [hx, hse]
      constructor
      · simp [Json.pyGetD, PyDict.getD, hg]
      · exact hv
    | null => simp [wfEntryVal] at hv
    | bool b => simp [wfEntryVal] at hv
    | num n => simp [wfEntryVal] at hv
    | str s => simp [wfEntryVal] at hv
    | arr l => simp [wfEntryVal] at hv

/-- The evidence test of a well-formed non-error record never raises and
computes the spec's flag. -/
lemma hasEvidenceFor_eq {ext : PyDict} (hwf : wfRecord ext = true)
    (herr : PyDict.hasKey ext "error" = false) (rq_id : String) :
    hasEvidenceFor ext rq_id = .ok (specHasEvidence ext rq_id) := by
  obtain ⟨h1, _⟩ := specEntry_spec hwf herr rq_id
  rw [hasEvidenceFor, h1]
  simp [specHasEvidence, Json.pyGetD]

/-- The evidence counter computes the spec-side count. -/
lemma countWithEvidence_eq (rq_id : String) :
    ∀ (l : List PyDict), (∀ e ∈ l, wfRecord e = true) →
      countWithEvidence rq_id l = .ok (specEvCount l rq_id) := by
  intro l
  induction l with
  | nil => intro _; rfl
  | cons ext rest ih =>
    intro hwf
    have hr := ih (fun e he => hwf e (by simp [he]))
    rw [countWithEvidence, hr]
    cases herr : PyDict.hasKey ext "error" with
    | true => simp [herr, specEvCount, List.filter_cons]
    | false =>
      rw [hasEvidenceFor_eq (hwf ext (by simp)) herr]
      cases hev : specHasEvidence ext rq_id <;>
        simp [herr, hev, specEvCount, List.filter_cons]

/-- `calculate_coverage_stats` never raises on well-formed records and
produces, in question order, the spec formula. -/
lemma calculate_coverage_stats_eq (extractions : List PyDict)
    (research_questions : List RQ)
    (hwf : ∀ e ∈ extractions, wfRecord e = true) :
    calculate_coverage_stats extractions research_questions = .ok
      (research_questions.map (fun rq =>
        (rq.id, ⟨specEvCount extractions rq.id, specNonError extractions,
          if specNonError extractions > 0 then
            (specEvCount extractions rq.id : ℚ) / (specNonError extractions : ℚ) * 100
          else 0⟩))) := by
  rw [calculate_coverage_stats]
  induction research_questions with
  | nil => rfl
  | cons rq rest ih =>
    rw [covStatsLoop, countWithEvidence_eq rq.id extractions hwf, ih]
    simp [specNonError]

end AggregationLemmas

/-- Claim C8: for every question and every record list on the record data
model, the coverage statistic equals `count(has_evidence=true among
non-error records) / count(non-error records) * 100` (as an exact
rational, the float being modelled exactly) and equals 0 when there are no
non-error records — no division-by-zero fault; and the narrative's
coverage line reports the ratio rounded to a whole percent, rendering
2-of-3 as "67%". -/
theorem coverage_stats_formula (extractions : List PyDict)
    (research_questions : List RQ)
    (hwf : ∀ e ∈ extractions, wfRecord e = true) :
    calculate_coverage_stats extractions research_questions = .ok
      (research_questions.map (fun rq =>
        (rq.id, ⟨specEvCount extractions rq.id, specNonError extractions,
          if specNonError extractions > 0 then
            (specEvCount extractions rq.id : ℚ) / (specNonError extractions : ℚ) * 100
          else 0⟩))) ∧
    evidenceFoundLine 2 3 ((2 : ℚ) / 3 * 100) =
      "**Evidence found in 2/3 sources (67%)**" :=
  ⟨calculate_coverage_stats_eq extractions research_questions hwf, by
    have hf : ⌊(2 : ℚ) / 3 * 100⌋ = (66 : ℤ) := by
      rw [Int.floor_eq_iff]
      norm_num
    have hr : roundHalfEven ((2 : ℚ) / 3 * 100) = 67 := by
      simp only [roundHalfEven, hf]
      norm_num
    rw [evidenceFoundLine, formatDot0f, hr]
    rfl⟩

/-- Witness for C8: three non-error records, two with evidence. -/
theorem coverage_stats_formula_witness :
    calculate_coverage_stats [recEvA, recEvB, recNoEv] [rqFix] = .ok
      ([rqFix].map (fun rq =>
        (rq.id, ⟨specEvCount [recEvA, recEvB, recNoEv] rq.id,
          specNonError [recEvA, recEvB, recNoEv],
          if specNonError [recEvA, recEvB, recNoEv] > 0 then
            (specEvCount [recEvA, recEvB, recNoEv] rq.id : ℚ) /
              (specNonError [recEvA, recEvB, recNoEv] : ℚ) * 100
          else 0⟩))) ∧
    evidenceFoundLine 2 3 ((2 : ℚ) / 3 * 100) =
      "**Evidence found in 2/3 sources (67%)**" :=
  coverage_stats_formula [recEvA, recEvB, recNoEv] [rqFix] (by decide)

section MatrixLemmas

/-- `pure` into `Except` is `ok`. -/
@[simp] lemma exceptPure_eq_ok {ε α : Type} (a : α) :
    (pure a : Except ε α) = Except.ok a := rfl

/-- Key list of an appended dict. -/
lemma PyDict.keys_append (d e : PyDict) :
    PyDict.keys (d ++ e) = PyDict.keys d ++ PyDict.keys e := by
  simp [PyDict.keys]

/-- Key membership of an appended dict. -/
lemma PyDict.hasKey_append (d e : PyDict) (k : String) :
    PyDict.hasKey (d ++ e) k = (PyDict.hasKey d k || PyDict.hasKey e k) := by
  simp [PyDict.hasKey, List.any_append]

/-- The keys of one question's cell block. -/
lemma blockCells_keys (ext : PyDict) (rq : RQ) :
    PyDict.keys (blockCells ext rq) = rqBlockKeys rq := rfl

/-- The keys of the per-question blocks, flattened. -/
lemma flat_blockCells_keys (ext : PyDict) (rqs : List RQ) :
    PyDict.keys (rqs.flatMap (blockCells ext)) = rqs.flatMap rqBlockKeys := by
  induction rqs with
  | nil => rfl
  | cons rq rest ih =>
    rw [List.flatMap_cons, List.flatMap_cons, PyDict.keys_append, ih, blockCells_keys]

/-- The flattened block keys count four per question. -/
lemma flat_rqBlockKeys_length (rqs : List RQ) :
    (rqs.flatMap rqBlockKeys).length = 4 * rqs.length := by
  induction rqs with
  | nil => rfl
  | cons rq rest ih =>
    rw [List.flatMap_cons, List.length_append, ih]
    simp [rqBlockKeys, List.length_cons]
    ring

/-- Four assignments of pairwise-fresh keys append their cells. -/
lemma set_four (row : PyDict) (k1 k2 k3 k4 : String) (v1 v2 v3 v4 : Json)
    (h1 : PyDict.hasKey row k1 = false) (h2 : PyDict.hasKey row k2 = false)
    (h3 : PyDict.hasKey row k3 = false) (h4 : PyDict.hasKey row k4 = false)
    (hd : List.Nodup [k1, k2, k3, k4]) :
    PyDict.set (PyDict.set (PyDict.set (PyDict.set row k1 v1) k2 v2) k3 v3) k4 v4 =
      row ++ [(k1, v1), (k2, v2), (k3, v3), (k4, v4)] := by
  simp only [List.nodup_cons, List.mem_cons, List.not_mem_nil, or_false,
    List.nodup_nil, and_true, not_or] at hd
  have b12 : (k1 == k2) = false := beq_eq_false_iff_ne.mpr hd.1.1
  have b13 : (k1 == k3) = false := beq_eq_false_iff_ne.mpr hd.1.2.1
  have b14 : (k1 == k4) = false := beq_eq_false_iff_ne.mpr hd.1.2.2
  have b23 : (k2 == k3) = false := beq_eq_false_iff_ne.mpr hd.2.1.1
  have b24 : (k2 == k4) = false := beq_eq_false_iff_ne.mpr hd.2.1.2
  have b34 : (k3 == k4) = false := beq_eq_false_iff_ne.mpr hd.2.2.1
  rw [PyDict.set_fresh v1 row k1 h1]
  rw [PyDict.set_fresh v2 _ k2
    (by rw [PyDict.hasKey_append, h2]; simp [PyDict.hasKey, b12])]
  rw [PyDict.set_fresh v3 _ k3
    (by rw [List.append_assoc, PyDict.hasKey_append, h3]
        simp [PyDict.hasKey, b13, b23])]
  rw [PyDict.set_fresh v4 _ k4
    (by rw [List.append_assoc, List.append_assoc, PyDict.hasKey_append, h4]
        simp [PyDict.hasKey, b14, b24, b34])]
  simp

/-- On a well-formed entry, the finding truncation computes
`truncAnswer` without raising. -/
lemma truncatePy_answer {entry : PyDict} (h : wfEntryVal (Json.obj entry) = true) :
    truncatePy 500 497 (PyDict.getD entry "answer" (Json.str "")) =
      .ok (truncAnswer (PyDict.getD entry "answer" (Json.str ""))) := by
  rw [wfEntryVal, Bool.and_eq_true] at h
  have h1 := h.1
  rw [PyDict.getD]
  cases hg : PyDict.get entry "answer" with
  | none => simp [truncatePy, pyLen, truncAnswer]
  | some v =>
    rw [hg] at h1
    cases v with
    | str s =>
      by_cases hlen : s.length > 500 <;>
        simp [truncatePy, pyLen, truncAnswer, hlen]
    | null => simp at h1
    | bool b => simp at h1
    | num n => simp at h1
    | arr l => simp at h1
    | obj o => simp at h1

/-- The per-question loop appends exactly one well-formed 4-cell block
per question, in question order. -/
lemma matrixRowLoop_eq {ext : PyDict} (hwf : wfRecord ext = true)
    (herr : PyDict.hasKey ext "error" = false) :
    ∀ (rqs : List RQ) (row : PyDict),
      (PyDict.keys row ++ rqs.flatMap rqBlockKeys).Nodup →
      matrixRowLoop ext rqs row = .ok (row ++ rqs.flatMap (blockCells ext)) := by
  intro rqs
  induction rqs with
  | nil => intro row _; simp [matrixRowLoop]
  | cons rq rest ih =>
    intro row hnd
    obtain ⟨hget, hwfe⟩ := specEntry_spec hwf herr rq.id
    have key_not_row : ∀ k ∈ rqBlockKeys rq, PyDict.hasKey row k = false := by
      intro k hk
      cases hb : PyDict.hasKey row k with
      | false => rfl
      | true =>
        exfalso
        have hmem := (PyDict.hasKey_iff_mem_keys row k).mp hb
        rw [List.nodup_append] at hnd
        exact hnd.2.2 hmem (by
          rw [List.flatMap_cons]
          exact List.mem_append_left _ hk)
    have hblock_nodup : (rqBlockKeys rq).Nodup := by
      rw [List.nodup_append, List.flatMap_cons, List.nodup_append] at hnd
      exact hnd.2.1.1
    rw [matrixRowLoop, hget]
    simp only [exceptOk_bind, Json.pyGetD]
    rw [truncatePy_answer hwfe]
    simp only [exceptOk_bind]
    rw [set_four row _ _ _ _ _ _ _ _
      (key_not_row _ (by simp [rqBlockKeys]))
      (key_not_row _ (by simp [rqBlockKeys]))
      (key_not_row _ (by simp [rqBlockKeys]))
      (key_not_row _ (by simp [rqBlockKeys]))
      hblock_nodup]
    have hrow' : row ++ [(rq.id ++ " Evidence",
          Json.str (if (PyDict.getD (specEntry ext rq.id) "has_evidence" Json.null).truthy
            then "Y" else "N")),
        (rq.id ++ " Finding",
          truncAnswer (PyDict.getD (specEntry ext rq.id) "answer" (Json.str ""))),
        (rq.id ++ " Effect Size", PyDict.getD (specEntry ext rq.id) "effect_size" Json.null),
        (rq.id ++ " Direction", PyDict.getD (specEntry ext rq.id) "direction" Json.null)] =
        row ++ blockCells ext rq := by
      simp [blockCells]
    rw [hrow']
    rw [ih (row ++ blockCells ext rq) (by
      rw [PyDict.keys_append, blockCells_keys, List.append_assoc]
      rw [List.flatMap_cons] at hnd
      simpa using hnd)]
    rw [List.flatMap_cons, List.append_assoc]

/-- A well-formed non-error record's matrix row is the 8 base cells
followed by the per-question blocks. -/
lemma matrixRow_eq {ext : PyDict} (hwf : wfRecord ext = true)
    (herr : PyDict.hasKey ext "error" = false) (rqs : List RQ)
    (hnd : (successBaseKeys ++ rqs.flatMap rqBlockKeys).Nodup) :
    matrixRow rqs ext = .ok (successRowBase ext ++ rqs.flatMap (blockCells ext)) := by
  obtain ⟨d, hd⟩ := wf_sample hwf herr
  have hbase : successRowBase ext =
      [("Source #", PyDict.getD ext "source_number" Json.null),
       ("Citation", PyDict.getD ext "citation" Json.null),
       ("Title", PyDict.getD ext "title" Json.null),
       ("Study Type", PyDict.getD ext "study_type" Json.null),
       ("Sample N", PyDict.getD d "n" Json.null),
       ("Age Range", PyDict.getD d "age_range" Json.null),
       ("Population", PyDict.getD d "population" Json.null),
       ("Status", Json.str "Success")] := by
    rw [successRowBase]
    rw [hd]
  rw [matrixRow]
  simp only [herr, Bool.false_eq_true, if_false]
  rw [hd]
  simp only [Json.pyGetD, exceptOk_bind]
  rw [matrixRowLoop_eq hwf herr rqs _ (by
    have hk : PyDict.keys
        [("Source #", PyDict.getD ext "source_number" Json.null),
         ("Citation", PyDict.getD ext "citation" Json.null),
         ("Title", PyDict.getD ext "title" Json.null),
         ("Study Type", PyDict.getD ext "study_type" Json.null),
         ("Sample N", PyDict.getD d "n" Json.null),
         ("Age Range", PyDict.getD d "age_range" Json.null),
         ("Population", PyDict.getD d "population" Json.null),
         ("Status", Json.str "Success")] = successBaseKeys := rfl
    rw [hk]
    exact hnd)]
  rw [← hbase]

/-- `generate_excel_matrix` builds one row per record and, for every
non-error record, the base-plus-blocks row. -/
lemma generate_excel_matrix_rows_eq (rqs : List RQ)
    (hnd : (successBaseKeys ++ rqs.flatMap rqBlockKeys).Nodup) :
    ∀ (l : List PyDict), (∀ e ∈ l, wfRecord e = true) →
      ∃ rows, generate_excel_matrix_rows l rqs = .ok rows ∧
        List.Forall₂ (fun ext row => PyDict.hasKey ext "error" = false →
          row = successRowBase ext ++ rqs.flatMap (blockCells ext)) l rows := by
  intro l
  induction l with
  | nil => intro _; exact ⟨[], rfl, List.Forall₂.nil⟩
  | cons ext rest ih =>
    intro hwf
    obtain ⟨rows, hrows, hfa⟩ := ih (fun e he => hwf e (by simp [he]))
    cases herr : PyDict.hasKey ext "error" with
    | true =>
      refine ⟨[("Source #", PyDict.getD ext "source_number" Json.null),
               ("Filename", PyDict.getD ext "filename" Json.null),
               ("Status", Json.str "Error"),
               ("Error", PyDict.getD ext "error" Json.null)] :: rows, ?_, ?_⟩
      · rw [generate_excel_matrix_rows, matrixRow]
        simp [herr, hrows]
      · exact List.Forall₂.cons (fun hc => absurd herr (by simp [hc])) hfa
    | false =>
      refine ⟨(successRowBase ext ++ rqs.flatMap (blockCells ext)) :: rows, ?_, ?_⟩
      · rw [generate_excel_matrix_rows, matrixRow_eq (hwf ext (by simp)) herr rqs hnd]
        simp [hrows]
      · exact List.Forall₂.cons (fun _ => rfl) hfa

end MatrixLemmas

/-- Claim C9 counterexample: a Success row for one question has 12
columns — the 8 base columns plus 4 per question — not `4 + 4×1 = 8` as
the claim's width formula states. -/
theorem matrix_width_counterexample :
    generate_excel_matrix_rows [recPlain] [rqFix] = .ok
      [[("Source #", Json.num 1), ("Citation", Json.null), ("Title", Json.null),
        ("Study Type", Json.null), ("Sample N", Json.null), ("Age Range", Json.null),
        ("Population", Json.null), ("Status", Json.str "Success"),
        ("RQ1 Evidence", Json.str "N"), ("RQ1 Finding", Json.str ""),
        ("RQ1 Effect Size", Json.null), ("RQ1 Direction", Json.null)]] ∧
    ¬((12 : Nat) = 4 + 4 * 1) :=
  ⟨rfl, by decide⟩

/-- Claim C9 (amended): the matrix has exactly one row per record; every
Success row is the 8 base cells followed, for each question in
question-list order and regardless of record order, by exactly 4 cells
(evidence flag, capped finding, effect size, direction), so its column
set is `8 + 4×|questions|` wide — not `4 + 4×|questions|`. -/
theorem generate_excel_matrix_shape (extractions : List PyDict) (rqs : List RQ)
    (hwf : ∀ e ∈ extractions, wfRecord e = true)
    (hnd : (successBaseKeys ++ rqs.flatMap rqBlockKeys).Nodup) :
    ∃ rows, generate_excel_matrix_rows extractions rqs = .ok rows ∧
      rows.length = extractions.length ∧
      List.Forall₂ (fun ext row => PyDict.hasKey ext "error" = false →
        row = successRowBase ext ++ rqs.flatMap (blockCells ext) ∧
        PyDict.keys row = successBaseKeys ++ rqs.flatMap rqBlockKeys ∧
        (PyDict.keys row).length = 8 + 4 * rqs.length) extractions rows := by
  obtain ⟨rows, hrows, hfa⟩ := generate_excel_matrix_rows_eq rqs hnd extractions hwf
  refine ⟨rows, hrows, (List.Forall₂.length_eq hfa).symm, ?_⟩
  refine List.Forall₂.imp ?_ hfa
  intro ext row h herr
  have hrow := h herr
  have hkeys : PyDict.keys row = successBaseKeys ++ rqs.flatMap rqBlockKeys := by
    rw [hrow, PyDict.keys_append, flat_blockCells_keys]
    rfl
  refine ⟨hrow, hkeys, ?_⟩
  rw [hkeys, List.length_append, flat_rqBlockKeys_length]
  rfl

/-- Witness for the amended C9 on a concrete record set: two rows, the
Success row carrying the 8 base cells and one 4-cell block. -/
theorem generate_excel_matrix_shape_witness :
    ∃ rows, generate_excel_matrix_rows [recEvA, recErr] [rqFix] = .ok rows ∧
      rows.length = [recEvA, recErr].length ∧
      List.Forall₂ (fun ext row => PyDict.hasKey ext "error" = false →
        row = successRowBase ext ++ [rqFix].flatMap (blockCells ext) ∧
        PyDict.keys row = successBaseKeys ++ [rqFix].flatMap rqBlockKeys ∧
        (PyDict.keys row).length = 8 + 4 * [rqFix].length) [recEvA, recErr] rows :=
  generate_excel_matrix_shape [recEvA, recErr] [rqFix] (by decide) (by decide)

section NarrativeLemmas

/-- Truncation of a string value never raises. -/
lemma truncatePy_str (lim cut : Nat) (s : String) :
    truncatePy lim cut (Json.str s) =
      .ok (if s.length > lim then Json.str (s.take cut ++ "...") else Json.str s) := by
  by_cases h : s.length > lim <;> simp [truncatePy, pyLen, h]

/-- The narrative's per-question partition computes the two filters, in
record order, pairing each with-evidence record with its entry. -/
lemma partitionEvidence_eq (rq_id : String) :
    ∀ (l : List PyDict), (∀ e ∈ l, wfRecord e = true) →
      partitionEvidence rq_id l = .ok
        ((l.filter (fun e => !PyDict.hasKey e "error" && specHasEvidence e rq_id)).map
          (fun e => (e, Json.obj (specEntry e rq_id))),
         l.filter (fun e => !PyDict.hasKey e "error" && !specHasEvidence e rq_id)) := by
  intro l
  induction l with
  | nil => intro _; rfl
  | cons ext rest ih =>
    intro hwf
    have hr := ih (fun e he => hwf e (by simp [he]))
    rw [partitionEvidence, hr]
    cases herr : PyDict.hasKey ext "error" with
    | true => simp [herr, List.filter_cons]
    | false =>
      obtain ⟨hget, _⟩ := specEntry_spec (hwf ext (by simp)) herr rq_id
      simp only [exceptOk_bind, herr, Bool.false_eq_true, if_false]
      rw [hget]
      simp only [exceptOk_bind, Json.pyGetD]
      cases hev : specHasEvidence ext rq_id with
      | true =>
        have ht : (PyDict.getD (specEntry ext rq_id) "has_evidence"
            (Json.bool false)).truthy = true := hev
        simp [herr, hev, ht, List.filter_cons]
      | false =>
        have ht : (PyDict.getD (specEntry ext rq_id) "has_evidence"
            (Json.bool false)).truthy = false := hev
        simp [herr, hev, ht, List.filter_cons]

/-- The quote block never raises on a data-model quotes value. -/
lemma quoteLinesFor_ok {q : Json}
    (h : q = Json.null ∨ ∃ qs, q = Json.arr qs ∧ qs.all wfQuote = true) :
    ∃ ls, quoteLinesFor q = .ok ls := by
  rcases h with rfl | ⟨qs, rfl, hq⟩
  · exact ⟨[], rfl⟩
  · cases qs with
    | nil => exact ⟨[], rfl⟩
    | cons q0 qrest =>
      rw [List.all_cons, Bool.and_eq_true] at hq
      have h0 := hq.1
      cases q0 with
      | obj qentry =>
        have hqs : ∃ s, PyDict.getD qentry "quote" (Json.str "") = Json.str s := by
          rw [wfQuote] at h0
          rw [PyDict.getD]
          cases hg : PyDict.get qentry "quote" with
          | none => exact ⟨"", rfl⟩
          | some v =>
            rw [hg] at h0
            cases v with
            | str s => exact ⟨s, rfl⟩
            | null => simp at h0
            | bool b => simp at h0
            | num n => simp at h0
            | arr l => simp at h0
            | obj o => simp at h0
        obtain ⟨s, hs⟩ := hqs
        rw [quoteLinesFor]
        simp only [Json.truthy, List.isEmpty_cons, Bool.not_false, if_true]
        simp only [pyLen, exceptOk_bind, pyIndex0, Json.pyGetD]
        rw [hs]
        by_cases hst : s = ""
        · subst hst
          simp [Json.truthy]
        · have htr : (Json.str s).truthy = true := by simp [Json.truthy, hst]
          simp only [htr, if_true, List.length_cons]
          rw [truncatePy_str]
          simp only [exceptOk_bind]
          by_cases hlen : s.length > 300 <;> simp [hlen, hst]
      | null => simp [wfQuote] at h0
      | bool b => simp [wfQuote] at h0
      | num n => simp [wfQuote] at h0
      | str t => simp [wfQuote] at h0
      | arr l => simp [wfQuote] at h0

/-- The finding paragraph never raises on a well-formed entry. -/
lemma findingBlock_ok (ext : PyDict) {entry : PyDict}
    (h : wfEntryVal (Json.obj entry) = true) :
    ∃ ls, findingBlock ext (Json.obj entry) = .ok ls := by
  rw [wfEntryVal, Bool.and_eq_true] at h
  obtain ⟨h1, h2⟩ := h
  have hans : ∃ s, PyDict.getD entry "answer" (Json.str "") = Json.str s := by
    rw [PyDict.getD]
    cases hg : PyDict.get entry "answer" with
    | none => exact ⟨"", rfl⟩
    | some v =>
      rw [hg] at h1
      cases v with
      | str s => exact ⟨s, rfl⟩
      | null => simp at h1
      | bool b => simp at h1
      | num n => simp at h1
      | arr l => simp at h1
      | obj o => simp at h1
  have hqwf : PyDict.getD entry "supporting_quotes" (Json.arr []) = Json.null ∨
      ∃ qs, PyDict.getD entry "supporting_quotes" (Json.arr []) = Json.arr qs ∧
        qs.all wfQuote = true := by
    rw [PyDict.getD]
    cases hg : PyDict.get entry "supporting_quotes" with
    | none => exact .inr ⟨[], rfl, rfl⟩
    | some v =>
      rw [hg] at h2
      cases v with
      | null => exact .inl rfl
      | arr qs => exact .inr ⟨qs, rfl, h2⟩
      | bool b => simp at h2
      | num n => simp at h2
      | str t => simp at h2
      | obj o => simp at h2
  obtain ⟨s, hs⟩ := hans
  obtain ⟨ls, hls⟩ := quoteLinesFor_ok hqwf
  rw [findingBlock]
  simp only [Json.pyGetD, exceptOk_bind]
  rw [hs]
  simp only [exceptOk_bind]
  rw [hls]
  exact ⟨_, rfl⟩

/-- The findings loop never raises when every entry is well formed. -/
lemma findingsLoop_ok :
    ∀ (l : List (PyDict × Json)),
      (∀ p ∈ l, ∃ entry, p.2 = Json.obj entry ∧ wfEntryVal (Json.obj entry) = true) →
      ∃ ls, findingsLoop l = .ok ls := by
  intro l
  induction l with
  | nil => intro _; exact ⟨[], rfl⟩
  | cons p rest ih =>
    intro h
    obtain ⟨e, rd⟩ := p
    obtain ⟨entry, h2, hwfe⟩ := h (e, rd) (by simp)
    simp only at h2
    subst h2
    obtain ⟨ls1, hb⟩ := findingBlock_ok e hwfe
    obtain ⟨ls2, hrec⟩ := ih (fun q hq => h q (by simp [hq]))
    rw [findingsLoop, hb, hrec]
    exact ⟨_, rfl⟩

/-- One question's narrative section never raises on well-formed
records. -/
lemma rqSection_ok (extractions : List PyDict)
    (hwf : ∀ e ∈ extractions, wfRecord e = true) (rq : RQ) :
    ∃ ls, rqSection extractions rq = .ok ls := by
  rw [rqSection, partitionEvidence_eq rq.id extractions hwf]
  simp only [exceptOk_bind]
  set ws := (extractions.filter
    (fun e => !PyDict.hasKey e "error" && specHasEvidence e rq.id)).map
      (fun e => (e, Json.obj (specEntry e rq.id))) with hws
  cases hempty : ws.isEmpty with
  | true => simp [hempty]
  | false =>
    have hwse : ∀ p ∈ ws, ∃ entry, p.2 = Json.obj entry ∧
        wfEntryVal (Json.obj entry) = true := by
      intro p hp
      rw [hws] at hp
      obtain ⟨e, he, rfl⟩ := List.mem_map.mp hp
      have hef := List.mem_filter.mp he
      have herr : PyDict.hasKey e "error" = false := by
        have := hef.2
        rw [Bool.and_eq_true] at this
        simpa using this.1
      exact ⟨specEntry e rq.id, rfl,
        (specEntry_spec (hwf e hef.1) herr rq.id).2⟩
    obtain ⟨blocks, hblocks⟩ := findingsLoop_ok ws hwse
    simp only [hempty, Bool.false_eq_true, if_false, hblocks, exceptOk_bind]
    exact ⟨_, rfl⟩

/-- All question sections never raise on well-formed records. -/
lemma rqSectionsLoop_ok (extractions : List PyDict)
    (hwf : ∀ e ∈ extractions, wfRecord e = true) :
    ∀ (rqs : List RQ), ∃ ls, rqSectionsLoop extractions rqs = .ok ls := by
  intro rqs
  induction rqs with
  | nil => exact ⟨[], rfl⟩
  | cons rq rest ih =>
    obtain ⟨sec, hsec⟩ := rqSection_ok extractions hwf rq
    obtain ⟨more, hmore⟩ := ih
    rw [rqSectionsLoop, hsec, hmore]
    exact ⟨_, rfl⟩

/-- The references sort key of a well-formed record never raises. -/
lemma refSortKey_ok {ext : PyDict} (hwf : wfRecord ext = true) :
    ∃ n, refSortKey ext = .ok n := by
  rw [wfRecord, Bool.and_eq_true] at hwf
  have h1 := hwf.1
  rw [refSortKey, PyDict.getD]
  cases hg : PyDict.get ext "source_number" with
  | none => exact ⟨0, rfl⟩
  | some v =>
    rw [hg] at h1
    cases v with
    | num n => exact ⟨n, rfl⟩
    | null => simp at h1
    | bool b => simp at h1
    | str t => simp at h1
    | arr l => simp at h1
    | obj o => simp at h1

/-- Keying the references never raises on well-formed records. -/
lemma keyedRefs_ok :
    ∀ (l : List PyDict), (∀ e ∈ l, wfRecord e = true) →
      ∃ ks, keyedRefs l = .ok ks := by
  intro l
  induction l with
  | nil => intro _; exact ⟨[], rfl⟩
  | cons ext rest ih =>
    intro hwf
    obtain ⟨n, hn⟩ := refSortKey_ok (hwf ext (by simp))
    obtain ⟨ks, hks⟩ := ih (fun e he => hwf e (by simp [he]))
    rw [keyedRefs, hn, hks]
    exact ⟨_, rfl⟩

/-- The references section never raises on well-formed records. -/
lemma referencesSection_ok (extractions : List PyDict)
    (hwf : ∀ e ∈ extractions, wfRecord e = true) :
    ∃ ls, referencesSection extractions = .ok ls := by
  obtain ⟨ks, hks⟩ := keyedRefs_ok extractions hwf
  rw [referencesSection, hks]
  exact ⟨_, rfl⟩

/-- The whole narrative generator never raises on well-formed records. -/
lemma generate_markdown_review_ok (now : String) (extractions : List PyDict)
    (research_questions : List RQ) (project : PyDict)
    (hwf : ∀ e ∈ extractions, wfRecord e = true) :
    ∃ lines, generate_markdown_review now extractions research_questions project
      = .ok lines := by
  obtain ⟨secs, hsecs⟩ := rqSectionsLoop_ok extractions hwf research_questions
  obtain ⟨refs, hrefs⟩ := referencesSection_ok extractions hwf
  rw [generate_markdown_review, hsecs]
  simp only [exceptOk_bind]
  rw [hrefs]
  exact ⟨_, rfl⟩

end NarrativeLemmas

section AbsentDataLemmas

/-- A record whose extractions mapping lacks the question key yields the
empty entry. -/
lemma specEntry_of_missing {ext : PyDict} {rq_id : String}
    (h : entryMissing ext rq_id = true) : specEntry ext rq_id = [] := by
  unfold entryMissing at h
  cases hx : PyDict.getD ext "extractions" (Json.obj []) with
  | obj entries =>
    rw [hx] at h
    simp only [Bool.not_eq_true'] at h
    unfold specEntry
    rw [hx]
    have hgd : PyDict.getD entries rq_id (Json.obj []) = Json.obj [] := by
      rw [PyDict.getD, PyDict.get_eq_none_of_not_hasKey h]
      rfl
    simp only [hgd]
  | null => rw [hx] at h; simp at h
  | bool b => rw [hx] at h; simp at h
  | num n => rw [hx] at h; simp at h
  | str s => rw [hx] at h; simp at h
  | arr l => rw [hx] at h; simp at h

/-- A missing question key counts as no evidence. -/
lemma specHasEvidence_of_missing {ext : PyDict} {rq_id : String}
    (h : entryMissing ext rq_id = true) : specHasEvidence ext rq_id = false := by
  rw [specHasEvidence, specEntry_of_missing h]
  rfl

/-- The 4-cell block of a missing question key: flag "N", empty finding,
null effect size and direction. -/
lemma blockCells_missing {ext : PyDict} {rq : RQ} (h : specEntry ext rq.id = []) :
    blockCells ext rq = [(rq.id ++ " Evidence", Json.str "N"),
      (rq.id ++ " Finding", Json.str ""),
      (rq.id ++ " Effect Size", Json.null),
      (rq.id ++ " Direction", Json.null)] := by
  unfold blockCells
  rw [h]
  rfl

/-- A key existing in a dict resolves to some value. -/
lemma PyDict.get_isSome_of_mem_keys {d : PyDict} {k : String}
    (h : k ∈ PyDict.keys d) : ∃ v, PyDict.get d k = some v := by
  induction d with
  | nil => simp [PyDict.keys] at h
  | cons kv rest ih =>
    rw [PyDict.keys, List.map_cons, List.mem_cons] at h
    rcases h with h | h
    · exact ⟨kv.2, by simp [PyDict.get, List.find?_cons, h]⟩
    · cases hb : (kv.1 == k) with
      | true => exact ⟨kv.2, by simp [PyDict.get, List.find?_cons, hb]⟩
      | false =>
        obtain ⟨v, hv⟩ := ih h
        refine ⟨v, ?_⟩
        rw [PyDict.get] at hv ⊢
        rw [List.find?_cons, hb]
        exact hv

/-- Looking a question's column up in a Success row lands in that
question's block. -/
lemma get_row_block {ext : PyDict} {rqs : List RQ} {rq : RQ} (hmem : rq ∈ rqs)
    (hnd : (successBaseKeys ++ rqs.flatMap rqBlockKeys).Nodup)
    {k : String} (hk : k ∈ rqBlockKeys rq) :
    PyDict.get (successRowBase ext ++ rqs.flatMap (blockCells ext)) k =
      PyDict.get (blockCells ext rq) k := by
  obtain ⟨l1, l2, rfl⟩ := List.append_of_mem hmem
  have hkflat : k ∈ (l1 ++ rq :: l2).flatMap rqBlockKeys := by
    rw [List.flatMap_append, List.flatMap_cons]
    exact List.mem_append_right _ (List.mem_append_left _ hk)
  rw [List.nodup_append] at hnd
  have hkbase : k ∉ successBaseKeys := fun hin => hnd.2.2 hin hkflat
  have hbase : PyDict.hasKey (successRowBase ext) k = false := by
    cases hb : PyDict.hasKey (successRowBase ext) k with
    | false => rfl
    | true =>
      exact absurd ((PyDict.hasKey_iff_mem_keys _ k).mp hb) (by
        rw [show PyDict.keys (successRowBase ext) = successBaseKeys from rfl]
        exact hkbase)
  rw [PyDict.get_append_right _ hbase, List.flatMap_append, List.flatMap_cons]
  have hnd2 := hnd.2.1
  rw [List.flatMap_append, List.flatMap_cons, List.nodup_append] at hnd2
  have hk1 : PyDict.hasKey (l1.flatMap (blockCells ext)) k = false := by
    cases hb : PyDict.hasKey (l1.flatMap (blockCells ext)) k with
    | false => rfl
    | true =>
      have hmem1 := (PyDict.hasKey_iff_mem_keys _ k).mp hb
      rw [flat_blockCells_keys] at hmem1
      exact absurd (List.mem_append_left _ hk) (by
        intro hin
        exact hnd2.2.2 hmem1 hin)
  rw [PyDict.get_append_right _ hk1]
  have hkb : k ∈ PyDict.keys (blockCells ext rq) := by
    rw [blockCells_keys]; exact hk
  obtain ⟨v, hv⟩ := PyDict.get_isSome_of_mem_keys hkb
  rw [PyDict.get_append_left _ hv, hv]

/-- Cell values for a missing question key. -/
lemma get_blockCells_missing {ext : PyDict} {rq : RQ}
    (h : specEntry ext rq.id = []) :
    PyDict.get (blockCells ext rq) (rq.id ++ " Evidence") = some (Json.str "N") ∧
    PyDict.get (blockCells ext rq) (rq.id ++ " Finding") = some (Json.str "") ∧
    PyDict.get (blockCells ext rq) (rq.id ++ " Effect Size") = some Json.null ∧
    PyDict.get (blockCells ext rq) (rq.id ++ " Direction") = some Json.null := by
  rw [blockCells_missing h]
  have b12 : ((rq.id ++ " Evidence") == (rq.id ++ " Finding")) = false :=
    beq_eq_false_iff_ne.mpr (strAppend_ne _ (by decide))
  have b13 : ((rq.id ++ " Evidence") == (rq.id ++ " Effect Size")) = false :=
    beq_eq_false_iff_ne.mpr (strAppend_ne _ (by decide))
  have b14 : ((rq.id ++ " Evidence") == (rq.id ++ " Direction")) = false :=
    beq_eq_false_iff_ne.mpr (strAppend_ne _ (by decide))
  have b23 : ((rq.id ++ " Finding") == (rq.id ++ " Effect Size")) = false :=
    beq_eq_false_iff_ne.mpr (strAppend_ne _ (by decide))
  have b24 : ((rq.id ++ " Finding") == (rq.id ++ " Direction")) = false :=
    beq_eq_false_iff_ne.mpr (strAppend_ne _ (by decide))
  have b34 : ((rq.id ++ " Effect Size") == (rq.id ++ " Direction")) = false :=
    beq_eq_false_iff_ne.mpr (strAppend_ne _ (by decide))
  refine ⟨?_, ?_, ?_, ?_⟩ <;>
    simp [PyDict.get, List.find?_cons, b12, b13, b14, b23, b24, b34]

/-- Base cells of a record whose sample field is null. -/
lemma successRowBase_null_sample {ext : PyDict}
    (h : PyDict.get ext "sample" = some Json.null) :
    PyDict.get (successRowBase ext) "Sample N" = some Json.null ∧
    PyDict.get (successRowBase ext) "Age Range" = some Json.null ∧
    PyDict.get (successRowBase ext) "Population" = some Json.null := by
  have hs : successRowBase ext =
      [("Source #", PyDict.getD ext "source_number" Json.null),
       ("Citation", PyDict.getD ext "citation" Json.null),
       ("Title", PyDict.getD ext "title" Json.null),
       ("Study Type", PyDict.getD ext "study_type" Json.null),
       ("Sample N", Json.null),
       ("Age Range", Json.null),
       ("Population", Json.null),
       ("Status", Json.str "Success")] := by
    unfold successRowBase
    rw [PyDict.getD, h]
    rfl
  rw [hs]
  exact ⟨rfl, rfl, rfl⟩

end AbsentDataLemmas

/-- Claim C10: for every Success-variant record lacking an expected
question key or carrying a null sample field, every aggregation operation
— matrix, narrative, coverage statistics — completes without raising, and
the absence is treated as no evidence / unknown: evidence flag "N", empty
finding, null effect size and direction, classification among the
without-evidence sources and no contribution to the with-evidence count;
a null sample yields null sample columns. -/
theorem aggregation_tolerates_absent_data
    (extractions : List PyDict) (rqs : List RQ)
    (hwf : ∀ e ∈ extractions, wfRecord e = true)
    (hnd : (successBaseKeys ++ rqs.flatMap rqBlockKeys).Nodup) :
    ((∃ stats, calculate_coverage_stats extractions rqs = .ok stats) ∧
     (∃ rows, generate_excel_matrix_rows extractions rqs = .ok rows) ∧
     (∀ (now : String) (project : PyDict), ∃ lines,
       generate_markdown_review now extractions rqs project = .ok lines)) ∧
    (∀ ext ∈ extractions, ∀ rq ∈ rqs,
      PyDict.hasKey ext "error" = false →
      entryMissing ext rq.id = true →
      hasEvidenceFor ext rq.id = .ok false ∧
      (∃ row, matrixRow rqs ext = .ok row ∧
        PyDict.get row (rq.id ++ " Evidence") = some (Json.str "N") ∧
        PyDict.get row (rq.id ++ " Finding") = some (Json.str "") ∧
        PyDict.get row (rq.id ++ " Effect Size") = some Json.null ∧
        PyDict.get row (rq.id ++ " Direction") = some Json.null) ∧
      (∃ ws wos, partitionEvidence rq.id extractions = .ok (ws, wos) ∧ ext ∈ wos)) ∧
    (∀ ext ∈ extractions, PyDict.hasKey ext "error" = false →
      PyDict.get ext "sample" = some Json.null →
      ∃ row, matrixRow rqs ext = .ok row ∧
        PyDict.get row "Sample N" = some Json.null ∧
        PyDict.get row "Age Range" = some Json.null ∧
        PyDict.get row "Population" = some Json.null) := by
  refine ⟨⟨⟨_, calculate_coverage_stats_eq extractions rqs hwf⟩, ?_, ?_⟩, ?_, ?_⟩
  · obtain ⟨rows, hrows, _⟩ := generate_excel_matrix_rows_eq rqs hnd extractions hwf
    exact ⟨rows, hrows⟩
  · intro now project
    exact generate_markdown_review_ok now extractions rqs project hwf
  · intro ext hext rq hrq herr hmiss
    have hse := specEntry_of_missing hmiss
    refine ⟨?_, ?_, ?_⟩
    · rw [hasEvidenceFor_eq (hwf ext hext) herr, specHasEvidence_of_missing hmiss]
    · refine ⟨_, matrixRow_eq (hwf ext hext) herr rqs hnd, ?_, ?_, ?_, ?_⟩ <;>
        rw [get_row_block hrq hnd (by simp [rqBlockKeys])]
      · exact (get_blockCells_missing hse).1
      · exact (get_blockCells_missing hse).2.1
      · exact (get_blockCells_missing hse).2.2.1
      · exact (get_blockCells_missing hse).2.2.2
    · refine ⟨_, _, partitionEvidence_eq rq.id extractions hwf, ?_⟩
      rw [List.mem_filter]
      refine ⟨hext, ?_⟩
      rw [herr, specHasEvidence_of_missing hmiss]
      rfl
  · intro ext hext herr hsam
    refine ⟨_, matrixRow_eq (hwf ext hext) herr rqs hnd, ?_, ?_, ?_⟩ <;>
      rw [PyDict.get_append_left]
    · exact (successRowBase_null_sample hsam).1
    · exact (successRowBase_null_sample hsam).2.1
    · exact (successRowBase_null_sample hsam).2.2

/-- Witness for C10: a record with an empty extractions mapping and a
record with a null sample, among full records, flow through all three
aggregations. -/
theorem aggregation_tolerates_absent_data_witness :
    ((∃ stats, calculate_coverage_stats
        [recEvA, recMissingKey, recNullSample, recErr] [rqFix] = .ok stats) ∧
     (∃ rows, generate_excel_matrix_rows
        [recEvA, recMissingKey, recNullSample, recErr] [rqFix] = .ok rows) ∧
     (∀ (now : String) (project : PyDict), ∃ lines,
       generate_markdown_review now [recEvA, recMissingKey, recNullSample, recErr]
         [rqFix] project = .ok lines)) ∧
    (∀ ext ∈ [recEvA, recMissingKey, recNullSample, recErr], ∀ rq ∈ [rqFix],
      PyDict.hasKey ext "error" = false →
      entryMissing ext rq.id = true →
      hasEvidenceFor ext rq.id = .ok false ∧
      (∃ row, matrixRow [rqFix] ext = .ok row ∧
        PyDict.get row (rq.id ++ " Evidence") = some (Json.str "N") ∧
        PyDict.get row (rq.id ++ " Finding") = some (Json.str "") ∧
        PyDict.get row (rq.id ++ " Effect Size") = some Json.null ∧
        PyDict.get row (rq.id ++ " Direction") = some Json.null) ∧
      (∃ ws wos, partitionEvidence rq.id
          [recEvA, recMissingKey, recNullSample, recErr] = .ok (ws, wos) ∧
        ext ∈ wos)) ∧
    (∀ ext ∈ [recEvA, recMissingKey, recNullSample, recErr],
      PyDict.hasKey ext "error" = false →
      PyDict.get ext "sample" = some Json.null →
      ∃ row, matrixRow [rqFix] ext = .ok row ∧
        PyDict.get row "Sample N" = some Json.null ∧
        PyDict.get row "Age Range" = some Json.null ∧
        PyDict.get row "Population" = some Json.null) :=
  aggregation_tolerates_absent_data [recEvA, recMissingKey, recNullSample, recErr]
    [rqFix] (by decide) (by decide)
